import Mathlib

/-!
Shallow embedding of the `Rionero2025/analytics-dashboard` repository
(files `src/marketplace_api.py`, `src/marketplace_api/worten.py`,
`src/marketplace_api/leroymerlin.py`, `src/marketplace_dashboard.py`).

Modelling conventions, used throughout:

* JSON payloads (the result of `resp.json()`) are modelled by `JVal`.
  Python `None` and pandas `NaN`/`NaT` are both modelled by `JVal.jnull`.
* Numbers are modelled by `ℚ` (the claims never depend on float rounding).
* Fallible Python code is modelled in `Except PyErr`; a raised Python
  exception is an `Except.error`, which propagates through `bind` exactly
  as an uncaught exception propagates in Python, carrying no partial
  result.
* An HTTP session is modelled by the finite list of responses the server
  would hand to successive `requests.get` calls, consumed in order; a
  request made after the list is exhausted is the modelling artefact
  `PyErr.ranOut` (it never occurs in the runs the theorems talk about).
-/

inductive JVal where
  | jnull
  | jbool (b : Bool)
  | jnum (q : ℚ)
  | jstr (s : String)
  | jarr (xs : List JVal)
  | jobj (fs : List (String × JVal))
deriving Repr

/-- Python exception kinds that the modelled code can raise, plus the
`ranOut` artefact for exhausting a finite response trace. -/
inductive PyErr where
  | httpError
  | typeError
  | valueError
  | keyError
  | attributeError
  | stopIteration
  | ranOut
deriving Repr, DecidableEq

/-- Python truthiness (`bool(x)`): `None`, `False`, `0`, `""`, `[]`, `{}`
are falsy, everything else is truthy. -/
def truthy : JVal → Bool
  | .jnull => false
  | .jbool b => b
  | .jnum q => q != 0
  | .jstr s => s != ""
  | .jarr xs => !xs.isEmpty
  | .jobj fs => !fs.isEmpty

/-- Python `a or b`: `a` if truthy, else `b`. -/
def pyOr (a b : JVal) : JVal := if truthy a then a else b

/-- First binding of key `k` in an association list (Python dict lookup). -/
def jLookup (fs : List (String × JVal)) (k : String) : Option JVal :=
  (fs.find? (fun p => p.1 == k)).map Prod.snd

/-- Python `v.get(k, d)`: dict lookup with default; calling `.get` on a
non-dict raises `AttributeError`. -/
def jGetD (v : JVal) (k : String) (d : JVal) : Except PyErr JVal :=
  match v with
  | .jobj fs => .ok ((jLookup fs k).getD d)
  | _ => .error .attributeError

/-- Python iteration over a value, as used by `list.extend(batch)`:
lists iterate their elements, strings their characters, dicts their keys;
anything else raises `TypeError`. -/
def asIterList : JVal → Except PyErr (List JVal)
  | .jarr xs => .ok xs
  | .jstr s => .ok (s.data.map (fun c => .jstr (String.mk [c])))
  | .jobj fs => .ok (fs.map (fun p => .jstr p.1))
  | _ => .error .typeError

/-- Numeric coercion used by Python comparisons such as `offset >= total`:
numbers and bools compare numerically, anything else raises `TypeError`. -/
def asNumQ : JVal → Except PyErr ℚ
  | .jnum q => .ok q
  | .jbool b => .ok (if b then 1 else 0)
  | _ => .error .typeError

/-- One HTTP response: the status code and the decoded JSON body. -/
structure HttpResp where
  status : Nat
  body : JVal
deriving Repr

/-- The pagination loop of `get_orders_worten` (`src/marketplace_api.py`
lines 26-42).  Arguments: the remaining responses, the current `offset`
and the accumulated `all_orders`.  Returns the accumulated orders, the
final `offset`, and the number of responses consumed.  Each response is
checked with `raise_for_status()` (4xx/5xx raises `HTTPError`); the batch
is `resp.json().get("orders", [])`; the loop breaks on a falsy batch, or
after extending `all_orders` and advancing `offset` once
`offset >= resp.json().get("total_count", 0)`. -/
def paginateWorten : List HttpResp → Nat → List JVal → Except PyErr (List JVal × Nat × Nat)
  | [], _, _ => .error .ranOut
  | r :: rest, offset, acc =>
    if 400 ≤ r.status then .error .httpError
    else
      match jGetD r.body "orders" (.jarr []) with
      | .error e => .error e
      | .ok batchv =>
        if truthy batchv = false then .ok (acc, offset, 1)
        else
          match asIterList batchv with
          | .error e => .error e
          | .ok batch =>
            match jGetD r.body "total_count" (.jnum 0) with
            | .error e => .error e
            | .ok tot =>
              match asNumQ tot with
              | .error e => .error e
              | .ok t =>
                if ((offset + batch.length : Nat) : ℚ) ≥ t then
                  .ok (acc ++ batch, offset + batch.length, 1)
                else
                  match paginateWorten rest (offset + batch.length) (acc ++ batch) with
                  | .error e => .error e
                  | .ok (res, o, n) => .ok (res, o, n + 1)

/-- The pagination loop of `WortenAPI.get_orders` (`src/marketplace_api/worten.py`
lines 82-100).  Differences from `paginateWorten`: the batch is
`payload.get("orders", []) or payload.get("data", [])`, and the reported
total defaults to `len(batch)` when absent
(`total = payload.get("total_count", len(batch))`). -/
def paginateWortenCls : List HttpResp → Nat → List JVal → Except PyErr (List JVal × Nat × Nat)
  | [], _, _ => .error .ranOut
  | r :: rest, offset, acc =>
    if 400 ≤ r.status then .error .httpError
    else
      match jGetD r.body "orders" (.jarr []) with
      | .error e => .error e
      | .ok ov =>
        match jGetD r.body "data" (.jarr []) with
        | .error e => .error e
        | .ok dv =>
          let batchv := pyOr ov dv
          if truthy batchv = false then .ok (acc, offset, 1)
          else
            match asIterList batchv with
            | .error e => .error e
            | .ok batch =>
              match jGetD r.body "total_count" (.jnum batch.length) with
              | .error e => .error e
              | .ok tot =>
                match asNumQ tot with
                | .error e => .error e
                | .ok t =>
                  if ((offset + batch.length : Nat) : ℚ) ≥ t then
                    .ok (acc ++ batch, offset + batch.length, 1)
                  else
                    match paginateWortenCls rest (offset + batch.length) (acc ++ batch) with
                    | .error e => .error e
                    | .ok (res, o, n) => .ok (res, o, n + 1)

/-- The pagination loop of `LeroyMerlinAPI.get_orders`
(`src/marketplace_api/leroymerlin.py` lines 28-40).  The batch is
`page.get("orders", []) or page.get("data", [])`; the loop breaks on a
falsy batch, or — after extending — when `page.get("next")` is falsy;
otherwise the next request carries the page token (in the model, the next
response is simply the next list element). -/
def paginateLM : List HttpResp → List JVal → Except PyErr (List JVal × Nat)
  | [], _ => .error .ranOut
  | r :: rest, acc =>
    if 400 ≤ r.status then .error .httpError
    else
      match jGetD r.body "orders" (.jarr []) with
      | .error e => .error e
      | .ok ov =>
        match jGetD r.body "data" (.jarr []) with
        | .error e => .error e
        | .ok dv =>
          let batchv := pyOr ov dv
          if truthy batchv = false then .ok (acc, 1)
          else
            match asIterList batchv with
            | .error e => .error e
            | .ok batch =>
              match jGetD r.body "next" .jnull with
              | .error e => .error e
              | .ok nxt =>
                if truthy nxt = false then .ok (acc ++ batch, 1)
                else
                  match paginateLM rest (acc ++ batch) with
                  | .error e => .error e
                  | .ok (res, n) => .ok (res, n + 1)

/-- Splitting a character list at every occurrence of a separator
(standing in for `str.split`, kept structurally recursive). -/
def splitOnChar (c : Char) : List Char → List (List Char)
  | [] => [[]]
  | a :: rest =>
    let ps := splitOnChar c rest
    if a == c then [] :: ps
    else
      match ps with
      | p :: t => (a :: p) :: t
      | [] => [[a]]

/-- Python `str.strip()` on the character list (structurally recursive
stand-in for `String.trim`). -/
def trimChars (cs : List Char) : List Char :=
  ((cs.dropWhile Char.isWhitespace).reverse.dropWhile Char.isWhitespace).reverse

/-- Lower-casing a string characterwise (structurally recursive stand-in
for `String.toLower`). -/
def lowerStr (s : String) : String := String.mk (s.data.map Char.toLower)

/-- Python `sep.join(parts)` (structurally recursive stand-in for
`String.intercalate`). -/
def joinSep (sep : String) : List String → String
  | [] => ""
  | [p] => p
  | p :: q :: rest => p ++ sep ++ joinSep sep (q :: rest)

/-- Decimal-literal parser backing the model of Python `float(str)`:
optional sign, digits, optional fractional part.  (Python's `float`
accepts a few more spellings — exponents, `inf` — none of which occur in
the payloads the theorems evaluate; every string rejected here and used
in a theorem is also rejected by Python's `float`.) -/
def strToRat (s : String) : Option ℚ :=
  let cs := trimChars s.data
  let signed : ℚ × List Char :=
    match cs with
    | '-' :: rest => (-1, rest)
    | '+' :: rest => (1, rest)
    | _ => (1, cs)
  let sgn := signed.1
  let natVal : List Char → Nat := fun ds => ds.foldl (fun a c => a * 10 + (c.toNat - 48)) 0
  match splitOnChar '.' signed.2 with
  | [a] =>
    if a.isEmpty || !a.all Char.isDigit then none
    else some (sgn * (natVal a : ℚ))
  | [a, b] =>
    if (a.isEmpty && b.isEmpty) || !a.all Char.isDigit || !b.all Char.isDigit then none
    else some (sgn * ((natVal a : ℚ) + (natVal b : ℚ) / ((10 : ℚ) ^ b.length)))
  | _ => none

/-- Python `float(x)`: numbers and bools convert, numeric strings parse
(`ValueError` otherwise), and `None`, lists and dicts raise `TypeError`. -/
def pyFloat : JVal → Except PyErr ℚ
  | .jnum q => .ok q
  | .jbool b => .ok (if b then 1 else 0)
  | .jstr s =>
    match strToRat s with
    | some q => .ok q
    | none => .error .valueError
  | .jnull => .error .typeError
  | .jarr _ => .error .typeError
  | .jobj _ => .error .typeError

/-- Python `a or b or ... or d`: the first truthy operand, else the last
operand `d` returned as-is. -/
def pyOrChain (vs : List JVal) (d : JVal) : JVal :=
  match vs with
  | [] => d
  | v :: rest => pyOr v (pyOrChain rest d)

/-- One row of the per-order-line DataFrames built by
`WortenAPI.get_orders` and `LeroyMerlinAPI.get_orders` (both adapters
emit rows with exactly these fields). -/
structure ORow where
  order_id : JVal
  order_date : JVal
  order_status : JVal
  sale_price : ℚ
  taxes : ℚ
  commission : ℚ
  shipping : ℚ
  sku : JVal
  product_name : JVal
deriving Repr

/-- The inner `for line in lines` loop shared by both adapters: one
result per line, in order, aborted by the first raised exception. -/
def buildRowsList (build : JVal → Except PyErr ORow) : List JVal → Except PyErr (List ORow)
  | [] => .ok []
  | l :: ls => (build l).bind fun r => (buildRowsList build ls).map fun rest => r :: rest

/-- One emitted row of `WortenAPI.get_orders` (`src/marketplace_api/worten.py`
lines 148-162): per-line `sku`/`product_name` guesses, and the per-order
header values passed through `float(...)` inside the loop body. -/
def wortenLineRow (oid dt status sale taxes comm ship : JVal) (line : JVal) : Except PyErr ORow :=
  match line with
  | .jobj ls =>
    let lg := fun k => (jLookup ls k).getD .jnull
    let sku := pyOrChain [lg "offer_sku", lg "product_sku", lg "sku"] (.jstr "")
    let name := pyOrChain [lg "product_title", lg "product_name"] (.jstr "")
    (pyFloat sale).bind fun sp =>
      (pyFloat taxes).bind fun tx =>
        (pyFloat comm).bind fun cm =>
          (pyFloat ship).map fun sh =>
            { order_id := oid, order_date := dt, order_status := status,
              sale_price := sp, taxes := tx, commission := cm, shipping := sh,
              sku := sku, product_name := name }
  | _ => .error .attributeError

/-- The rows that one order contributes in `WortenAPI.get_orders`
(`src/marketplace_api/worten.py` lines 112-162): one row per entry of
`o.get("order_lines", []) or o.get("items", [])`; the per-order header
fields are computed by `or`-chains of vendor field names. -/
def wortenRowsForOrder (o : JVal) : Except PyErr (List ORow) :=
  match o with
  | .jobj fs =>
    let g := fun k => (jLookup fs k).getD .jnull
    let oid := g "order_id"
    let dt := pyOrChain [g "creation_date", g "creationDate", g "dateCreated", g "date_created"] .jnull
    let status := pyOrChain [g "order_state", g "order_status", g "status"] (.jstr "")
    let sale := pyOrChain [g "total_price", g "totalPrice", g "price"] (.jnum 0)
    let taxes := pyOrChain [g "shipping_price", g "shippingPrice", g "tax_amount", g "taxAmount"] (.jnum 0)
    let commField := pyOrChain [g "total_commission", g "commissionAmount", g "commission_amount", g "commission"] (.jnum 0)
    let comm :=
      match commField with
      | .jobj ds => (jLookup ds "amount").getD ((jLookup ds "value").getD (.jnum 0))
      | v => pyOr v (.jnum 0)
    let ship := pyOrChain [g "shipping_price", g "shippingPrice", g "shipping_amount", g "shippingAmount"] (.jnum 0)
    let linesVal := pyOr ((jLookup fs "order_lines").getD (.jarr [])) ((jLookup fs "items").getD (.jarr []))
    (asIterList linesVal).bind (buildRowsList (wortenLineRow oid dt status sale taxes comm ship))
  | _ => .error .attributeError

/-- One emitted row of `LeroyMerlinAPI.get_orders`
(`src/marketplace_api/leroymerlin.py` lines 60-71). -/
def lmLineRow (oid dt status totalPrice taxSrc comm shipping : JVal) (l : JVal) : Except PyErr ORow :=
  match l with
  | .jobj ls =>
    let sku := pyOr ((jLookup ls "offer_sku").getD .jnull)
      (pyOr ((jLookup ls "product_sku").getD .jnull) ((jLookup ls "sku").getD (.jstr "")))
    let name := pyOr ((jLookup ls "product_name").getD .jnull) ((jLookup ls "product_title").getD (.jstr ""))
    (pyFloat totalPrice).bind fun sp =>
      (pyFloat taxSrc).bind fun tx =>
        (pyFloat comm).bind fun cm =>
          (pyFloat shipping).map fun sh =>
            { order_id := oid, order_date := dt, order_status := status,
              sale_price := sp, taxes := tx, commission := cm, shipping := sh,
              sku := sku, product_name := name }
  | _ => .error .attributeError

/-- The rows that one order contributes in `LeroyMerlinAPI.get_orders`
(`src/marketplace_api/leroymerlin.py` lines 48-71). -/
def lmRowsForOrder (o : JVal) : Except PyErr (List ORow) :=
  match o with
  | .jobj fs =>
    let g := fun k => (jLookup fs k).getD .jnull
    let dt := pyOrChain [g "creation_date", g "creationDate", g "dateCreated", g "date_created"] .jnull
    let comm := pyOrChain [g "commission_total_amount", g "commission_amount"] (.jnum 0)
    let totalPrice := pyOrChain [g "total_price", g "totalPrice"] (.jnum 0)
    let shipping := pyOrChain [g "shipping_price", g "shippingPrice"] (.jnum 0)
    let linesVal := pyOr ((jLookup fs "order_lines").getD (.jarr [])) ((jLookup fs "items").getD (.jarr []))
    (asIterList linesVal).bind
      (buildRowsList (lmLineRow (g "order_id") dt ((jLookup fs "order_status").getD (.jstr ""))
        totalPrice ((jLookup fs "tax_amount").getD (.jnum 0)) comm shipping))
  | _ => .error .attributeError

/-- The row-building pass of `WortenAPI.get_orders` over all fetched
orders: the single Python loop appending to `rows` is the in-order
concatenation of each order's contribution, stopping at the first raised
exception. -/
def wortenOrdersToRows : List JVal → Except PyErr (List ORow)
  | [] => .ok []
  | o :: os => (wortenRowsForOrder o).bind fun rs => (wortenOrdersToRows os).map fun rest => rs ++ rest

/-- The row-building pass of `LeroyMerlinAPI.get_orders`. -/
def lmOrdersToRows : List JVal → Except PyErr (List ORow)
  | [] => .ok []
  | o :: os => (lmRowsForOrder o).bind fun rs => (lmOrdersToRows os).map fun rest => rs ++ rest

/-- Date-likeness test backing the model of `pd.to_datetime`: the string
starts with an ISO `YYYY-MM-DD` prefix.  (Approximation of pandas'
parser; every date string used in a theorem is parsed the same way by
pandas.) -/
def isIsoLike (s : String) : Bool :=
  match s.data with
  | y1 :: y2 :: y3 :: y4 :: '-' :: m1 :: m2 :: '-' :: d1 :: d2 :: _ =>
    y1.isDigit && y2.isDigit && y3.isDigit && y4.isDigit &&
      m1.isDigit && m2.isDigit && d1.isDigit && d2.isDigit
  | _ => false

/-- One cell of `pd.to_datetime(column, errors="coerce")`: parseable
values stay (as the parsed timestamp), unparseable values become `NaT`
(modelled by `jnull`, like `None`/`NaN`). -/
def pdDateCell (v : JVal) : JVal :=
  match v with
  | .jstr s => if isIsoLike s then .jstr s else .jnull
  | .jnum q => .jnum q
  | _ => .jnull

/-- Full model of `WortenAPI.get_orders` (`src/marketplace_api/worten.py`
lines 78-169), from a finite response trace to the returned DataFrame's
rows.  With no orders it returns the empty DataFrame carrying the nine
canonical columns (rows `[]` here).  With orders but zero built rows,
`pd.DataFrame(rows)` has no columns at all, so the subsequent
`df["order_date"]` lookup raises `KeyError`.  Otherwise step 4 applies
`pd.to_datetime(..., errors="coerce")` to `order_date`;
`pd.to_numeric(...).fillna(0.0)` on the four monetary columns is the
identity there, since those cells are already floats. -/
def wortenClsGetOrders (rs : List HttpResp) : Except PyErr (List ORow) :=
  (paginateWortenCls rs 0 []).bind fun p =>
    if p.1.isEmpty then .ok []
    else
      (wortenOrdersToRows p.1).bind fun rows =>
        if rows.isEmpty then .error .keyError
        else .ok (rows.map fun r => { r with order_date := pdDateCell r.order_date })

/-- Full model of `LeroyMerlinAPI.get_orders`
(`src/marketplace_api/leroymerlin.py` lines 19-75); the empty/zero-row
handling mirrors `wortenClsGetOrders` (same final three lines of code). -/
def lmGetOrders (rs : List HttpResp) : Except PyErr (List ORow) :=
  (paginateLM rs []).bind fun p =>
    if p.1.isEmpty then .ok []
    else
      (lmOrdersToRows p.1).bind fun rows =>
        if rows.isEmpty then .error .keyError
        else .ok (rows.map fun r => { r with order_date := pdDateCell r.order_date })

/- Structural equality on JSON values, modelling Python `==` as used for
dict keys in `groupby(...).to_dict()` lookups. -/
mutual
def JVal.beq : JVal → JVal → Bool
  | .jnull, .jnull => true
  | .jbool a, .jbool b => a == b
  | .jnum a, .jnum b => a == b
  | .jstr a, .jstr b => a == b
  | .jarr xs, .jarr ys => JVal.beqList xs ys
  | .jobj xs, .jobj ys => JVal.beqFields xs ys
  | _, _ => false
def JVal.beqList : List JVal → List JVal → Bool
  | [], [] => true
  | x :: xs, y :: ys => JVal.beq x y && JVal.beqList xs ys
  | _, _ => false
def JVal.beqFields : List (String × JVal) → List (String × JVal) → Bool
  | [], [] => true
  | (k, v) :: xs, (l, w) :: ys => k == l && JVal.beq v w && JVal.beqFields xs ys
  | _, _ => false
end

/-- A pandas DataFrame: named columns over aligned rows of cells. -/
structure DataFrame where
  cols : List String
  rows : List (List JVal)
deriving Repr

/-- Column lookup `df[c]`: `none` models the `KeyError` case. -/
def dfGetCol (df : DataFrame) (c : String) : Option (List JVal) :=
  (df.cols.findIdx? (fun x => x == c)).map fun i => df.rows.map fun r => r.getD i .jnull

/-- Column assignment `df[c] = series`: replaces the column in place if
present, else appends it on the right (pandas semantics). -/
def dfSetColList (df : DataFrame) (c : String) (vs : List JVal) : DataFrame :=
  match df.cols.findIdx? (fun x => x == c) with
  | some i => { df with rows := df.rows.zipWith (fun r v => r.set i v) vs }
  | none => { cols := df.cols ++ [c], rows := df.rows.zipWith (fun r v => r ++ [v]) vs }

/-- The result of `df.get(key, default)`: a column (Series) when the key
names one, otherwise the default, a bare scalar. -/
inductive PdVal where
  | scalar (v : JVal)
  | series (vs : List JVal)
deriving Repr

/-- Python `df.get(key, default)` where `key` can be `None` (as produced
by `next((...), None)`): `DataFrame.get` returns the default on any
lookup failure, including `df[None]`. -/
def dfGet (df : DataFrame) (key : Option String) (d : JVal) : PdVal :=
  match key with
  | none => .scalar d
  | some c =>
    match dfGetCol df c with
    | some vs => .series vs
    | none => .scalar d

/-- One cell under `pd.to_numeric(..., errors="coerce")`: numbers stay,
bools become 0/1, numeric strings parse, everything else (including
`None`/`NaN`) coerces to `NaN`. -/
def toNumCell : JVal → JVal
  | .jnum q => .jnum q
  | .jbool b => .jnum (if b then 1 else 0)
  | .jstr s =>
    match strToRat s with
    | some q => .jnum q
    | none => .jnull
  | _ => .jnull

/-- Python `pd.to_numeric(x, errors="coerce")`: applied to a Series it
maps the cells; applied to a scalar (the `df.get` default path) it
returns a plain scalar. -/
def pdToNumericCoerce : PdVal → PdVal
  | .scalar v => .scalar (toNumCell v)
  | .series vs => .series (vs.map toNumCell)

/-- Python `.fillna(fill)`.  On a Series it replaces `NaN` cells.  On the
scalar returned by `pd.to_numeric(default)` it raises `AttributeError`
(a plain int/float has no `fillna` method). -/
def pdFillna (x : PdVal) (fill : JVal) : Except PyErr PdVal :=
  match x with
  | .series vs => .ok (.series (vs.map fun v => match v with | .jnull => fill | w => w))
  | .scalar _ => .error .attributeError

/-- Assignment of a `df.get`-style value: a Series lands as a column, a
scalar is broadcast over all rows. -/
def dfSetPd (df : DataFrame) (c : String) (x : PdVal) : DataFrame :=
  match x with
  | .series vs => dfSetColList df c vs
  | .scalar v => dfSetColList df c (List.replicate df.rows.length v)

/- Recursive flattening of one JSON object with `sep="_"`, as in
`pd.json_normalize(..., sep="_")`: nested objects contribute
`outer_inner` columns; arrays and scalars are kept as cells. -/
mutual
def flattenFields : List (String × JVal) → List (String × JVal)
  | [] => []
  | (k, v) :: rest => flattenOne k v ++ flattenFields rest
def flattenOne (k : String) : JVal → List (String × JVal)
  | .jobj gs => (flattenFields gs).map fun p => (k ++ "_" ++ p.1, p.2)
  | v => [(k, v)]
end

/-- Accumulate column names in first-seen order without duplicates. -/
def addCols (acc : List String) (ks : List String) : List String :=
  ks.foldl (fun a k => if a.contains k then a else a ++ [k]) acc

/-- `pd.json_normalize(records, sep="_")` over already-flattened records:
columns in first-seen order across records, missing cells `NaN`. -/
def jsonNormalize (recsF : List (List (String × JVal))) : DataFrame :=
  let cols := recsF.foldl (fun a fs => addCols a (fs.map Prod.fst)) []
  { cols := cols, rows := recsF.map fun fs => cols.map fun c => (jLookup fs c).getD .jnull }

/-- Substring test `needle in hay` on Python strings. -/
def charsPrefixOf : List Char → List Char → Bool
  | [], _ => true
  | _ :: _, [] => false
  | a :: xs, b :: ys => a == b && charsPrefixOf xs ys

/-- Occurrence test on character lists. -/
def charsContain (needle : List Char) : List Char → Bool
  | [] => needle.isEmpty
  | c :: rest => charsPrefixOf needle (c :: rest) || charsContain needle rest

/-- Substring test `needle in hay` on Python strings (structurally
recursive). -/
def containsSub (needle hay : String) : Bool := charsContain needle.data hay.data

/-- One cell of `pd.to_datetime(column)` in the default `errors="raise"`
mode: ISO-dated strings parse, `None`/`NaN` stays `NaT`, numbers parse as
epochs, anything else raises. -/
def pdDateCellStrict : JVal → Except PyErr JVal
  | .jstr s => if isIsoLike s then .ok (.jstr s) else .error .valueError
  | .jnull => .ok .jnull
  | .jnum q => .ok (.jnum q)
  | _ => .error .typeError

/-- The `.dt.date` projection: keep the calendar-date prefix of a parsed
timestamp. -/
def dtDateCell : JVal → JVal
  | .jstr s => .jstr (String.mk (s.data.take 10))
  | v => v

/-- Python `str(x)` as applied by `.astype(str)` (cells the claims never
inspect are rendered approximately). -/
def pyStrCell : JVal → String
  | .jstr s => s
  | .jnull => "nan"
  | .jbool b => if b then "True" else "False"
  | .jnum q => if q.den = 1 then toString q.num else toString q.num ++ "/" ++ toString q.den
  | .jarr _ => "<list>"
  | .jobj _ => "<dict>"

/-- Elementwise Python `+` over two aligned Series (used by
`df["shippingTaxAmount"].fillna(0) + df["taxAmount"].fillna(0)`). -/
def pyAdd : JVal → JVal → Except PyErr JVal
  | .jnum a, .jnum b => .ok (.jnum (a + b))
  | .jnum a, .jbool b => .ok (.jnum (a + if b then 1 else 0))
  | .jbool a, .jnum b => .ok (.jnum ((if a then 1 else 0) + b))
  | .jbool a, .jbool b => .ok (.jnum ((if a then 1 else 0) + if b then 1 else 0))
  | .jstr a, .jstr b => .ok (.jstr (a ++ b))
  | .jarr a, .jarr b => .ok (.jarr (a ++ b))
  | _, _ => .error .typeError

/-- Monadic zip for elementwise Series operations. -/
def zipWithExcept (f : JVal → JVal → Except PyErr JVal) : List JVal → List JVal → Except PyErr (List JVal)
  | [], _ => .ok []
  | _ :: _, [] => .ok []
  | a :: xs, b :: ys => (f a b).bind fun c => (zipWithExcept f xs ys).map (c :: ·)

/-- Replace a `NaN` cell (`.fillna(0)` on one cell). -/
def fillCell (fill : JVal) : JVal → JVal
  | .jnull => fill
  | v => v

/-- Step 2.b of `get_orders_worten` (`src/marketplace_api.py` lines
56-61): `order_date` from `creationDate` when that column exists, else
from the first column whose lower-cased name contains `"date"`; the bare
`next(...)` raises `StopIteration` when nothing matches. -/
def stepOrderDate (df : DataFrame) : Except PyErr DataFrame :=
  match dfGetCol df "creationDate" with
  | some vs =>
    (vs.mapM pdDateCellStrict).map fun ws => dfSetColList df "order_date" (ws.map dtDateCell)
  | none =>
    match df.cols.find? (fun c => containsSub "date" (lowerStr c)) with
    | none => .error .stopIteration
    | some dcol =>
      match dfGetCol df dcol with
      | some vs =>
        (vs.mapM pdDateCellStrict).map fun ws => dfSetColList df "order_date" (ws.map dtDateCell)
      | none => .error .keyError

/-- The shared shape of steps 2.c/2.e/2.f and the else-branch of 2.d:
`df[target] = pd.to_numeric(df.get(key, 0), errors="coerce").fillna(0.0)`. -/
def numFillStep (df : DataFrame) (target : String) (key : Option String) : Except PyErr DataFrame :=
  (pdFillna (pdToNumericCoerce (dfGet df key (.jnum 0))) (.jnum 0)).map (dfSetPd df target)

/-- Step 2.c of `get_orders_worten` (line 64): `sale_price` from the
literal `price` column. -/
def stepSalePrice (df : DataFrame) : Except PyErr DataFrame :=
  numFillStep df "sale_price" (some "price")

/-- Step 2.d of `get_orders_worten` (lines 66-71): `taxes` as the sum of
`shippingTaxAmount` and `taxAmount` when both columns exist, else the
numeric coercion of the first column containing `"tax"`. -/
def stepTaxes (df : DataFrame) : Except PyErr DataFrame :=
  if df.cols.contains "shippingTaxAmount" && df.cols.contains "taxAmount" then
    match dfGetCol df "shippingTaxAmount", dfGetCol df "taxAmount" with
    | some a, some b =>
      (zipWithExcept pyAdd (a.map (fillCell (.jnum 0))) (b.map (fillCell (.jnum 0)))).map
        (dfSetColList df "taxes")
    | _, _ => .error .keyError
  else
    numFillStep df "taxes" (df.cols.find? (fun c => containsSub "tax" (lowerStr c)))

/-- Step 2.e of `get_orders_worten` (lines 73-75): `commission` from the
first column whose lower-cased name contains `"commission"`. -/
def stepCommission (df : DataFrame) : Except PyErr DataFrame :=
  numFillStep df "commission" (df.cols.find? (fun c => containsSub "commission" (lowerStr c)))

/-- Step 2.f of `get_orders_worten` (lines 77-80): `shipping` from the
first column whose lower-cased name contains `"ship"` but not `"tax"`. -/
def stepShipping (df : DataFrame) : Except PyErr DataFrame :=
  numFillStep df "shipping"
    (df.cols.find? (fun c => containsSub "ship" (lowerStr c) && !containsSub "tax" (lowerStr c)))

/-- Step 2.g of `get_orders_worten` (lines 82-88): `order_status` from a
`status_label`/`state_label` column, else any `status`/`state` column,
else the empty string broadcast. -/
def stepOrderStatus (df : DataFrame) : Except PyErr DataFrame :=
  match df.cols.find? (fun c => containsSub "status_label" (lowerStr c) || containsSub "state_label" (lowerStr c)) with
  | some lbl =>
    match dfGetCol df lbl with
    | some vs => .ok (dfSetColList df "order_status" (vs.map fun v => .jstr (pyStrCell v)))
    | none => .error .keyError
  | none =>
    match df.cols.find? (fun c => containsSub "status" (lowerStr c) || containsSub "state" (lowerStr c)) with
    | some fb =>
      match dfGetCol df fb with
      | some vs => .ok (dfSetColList df "order_status" (vs.map fun v => .jstr (pyStrCell v)))
      | none => .error .keyError
    | none => .ok (dfSetPd df "order_status" (.scalar (.jstr "")))

/-- The record-path normalization backing step 3 of `get_orders_worten`
(`pd.json_normalize(all_orders, record_path=[lines_key], meta=[id_key],
sep="_")`, lines 100-105): each order's lines list yields one flattened
row per line, tagged with the order's `id_key` value as the meta column;
a non-list lines value or non-dict line raises, and a record missing the
meta key raises `KeyError`. -/
def buildLines (recs : List (List (String × JVal))) (lk idKey : String) :
    Except PyErr (List (List (String × JVal))) :=
  (recs.mapM (fun fs =>
    (match jLookup fs lk with
    | some (.jarr ls) =>
      ls.mapM (fun l =>
        (match l with
        | .jobj gs =>
          match jLookup fs idKey with
          | some idv => Except.ok (flattenFields gs ++ [(idKey, idv)])
          | none => Except.error PyErr.keyError
        | _ => Except.error PyErr.attributeError : Except PyErr (List (String × JVal))))
    | some _ => Except.error PyErr.typeError
    | none => Except.error PyErr.keyError : Except PyErr (List (List (String × JVal)))))).map List.flatten

/-- The `prod_map` lookup of step 3 (lines 107-113):
`lines.groupby(id_key)["productTitle"].agg("; ".join).to_dict()` followed
by `df[id_key].map(prod_map)`.  For an id value with matching line rows
it joins their `productTitle` strings with `"; "` (a non-string title,
including a missing one rendered `NaN`, makes `join` raise `TypeError`);
for an id with no line rows, `.map` yields `NaN`. -/
def prodLookup (lineRows : List (List (String × JVal))) (idKey : String) (v : JVal) :
    Except PyErr JVal :=
  let group := lineRows.filter fun fs =>
    match jLookup fs idKey with
    | some w => JVal.beq w v
    | none => false
  if group.isEmpty then .ok .jnull
  else
    (group.mapM fun fs =>
      match jLookup fs "productTitle" with
      | some (.jstr s) => Except.ok s
      | _ => Except.error PyErr.typeError).map fun names => .jstr (joinSep "; " names)

/-- Step 3 of `get_orders_worten` (lines 90-117): pick the lines key
(`orderLines` when every order has it, else `order_lines` when every
order has that, else none), and fill `product_name` from the joined
`productTitle`s of each order's lines, or `""` when there is no lines key
or no `productTitle` column. -/
def stepProductName (recs : List (List (String × JVal))) (idKey : String) (df : DataFrame) :
    Except PyErr DataFrame :=
  let linesKey :=
    if recs.all fun fs => (jLookup fs "orderLines").isSome then some "orderLines"
    else if recs.all fun fs => (jLookup fs "order_lines").isSome then some "order_lines"
    else none
  match linesKey with
  | none => .ok (dfSetPd df "product_name" (.scalar (.jstr "")))
  | some lk =>
    (buildLines recs lk idKey).bind fun lineRows =>
      let lcols := lineRows.foldl (fun a fs => addCols a (fs.map Prod.fst)) []
      if lcols.contains "productTitle" then
        match dfGetCol df idKey with
        | some ids =>
          (ids.mapM (prodLookup lineRows idKey)).map fun names =>
            dfSetColList df "product_name" names
        | none => .error .keyError
      else .ok (dfSetPd df "product_name" (.scalar (.jstr "")))

/-- Conversion of one raw order for `pd.json_normalize`: records must be
dicts. -/
def asObjFields : JVal → Except PyErr (List (String × JVal))
  | .jobj fs => .ok fs
  | _ => .error .attributeError

/-- Step 2.a's key guess (lines 52-53): the first key of the first order
whose lower-casing is `code`, `order_id` or `id`; `None` when nothing
matches. -/
def idKeyOf (recs : List (List (String × JVal))) : Option String :=
  match recs with
  | fs :: _ =>
    (fs.map Prod.fst).find? fun k => lowerStr k == "code" || lowerStr k == "order_id" || lowerStr k == "id"
  | [] => none

/-- The normalization pipeline of `get_orders_worten` (lines 47-117),
applied to a non-empty `all_orders`: `pd.json_normalize` then steps
2.a-2.g and 3 in program order, each mutating the same DataFrame.
`df["order_id"] = df[id_key]` raises `KeyError` both for `id_key = None`
(`df[None]`) and for an `id_key` absent from the normalized columns. -/
def wortenNormCore (os : List JVal) : Except PyErr DataFrame :=
  (os.mapM asObjFields).bind fun recs =>
    let df0 := jsonNormalize (recs.map flattenFields)
    match idKeyOf recs with
    | none => .error .keyError
    | some idKey =>
      match dfGetCol df0 idKey with
      | none => .error .keyError
      | some vs =>
        let df1 := dfSetColList df0 "order_id" vs
        (stepOrderDate df1).bind fun df2 =>
          (stepSalePrice df2).bind fun df3 =>
            (stepTaxes df3).bind fun df4 =>
              (stepCommission df4).bind fun df5 =>
                (stepShipping df5).bind fun df6 =>
                  (stepOrderStatus df6).bind fun df7 =>
                    stepProductName recs idKey df7

/-- The eight canonical columns returned by `get_orders_worten`
(lines 120-129), in order. -/
def worten8Cols : List String :=
  ["order_id", "order_date", "sale_price", "taxes", "commission", "shipping",
   "order_status", "product_name"]

/-- Final column selection `df[[...]]`: reorders to exactly the requested
columns, raising `KeyError` when any is missing. -/
def dfSelect (cs : List String) (df : DataFrame) : Except PyErr DataFrame :=
  if cs.all (fun c => df.cols.contains c) then
    .ok { cols := cs,
          rows := df.rows.map fun r =>
            cs.map fun c =>
              match df.cols.findIdx? (fun x => x == c) with
              | some i => r.getD i .jnull
              | none => .jnull }
  else .error .keyError

/-- Full model of `get_orders_worten` (`src/marketplace_api.py` lines
6-129): paginate, then return the bare `pd.DataFrame()` (no columns at
all) when no order was fetched, else normalize and select the eight
canonical columns. -/
def get_orders_worten (rs : List HttpResp) : Except PyErr DataFrame :=
  (paginateWorten rs 0 []).bind fun p =>
    if p.1.isEmpty then .ok { cols := [], rows := [] }
    else (wortenNormCore p.1).bind (dfSelect worten8Cols)

/-- One row of the `sales` table after `clean`
(`src/marketplace_dashboard.py` lines 93-105): exactly the `KEEP_COLS`
(the autoincrement `id` is never read).  `order_date` is the
`pd.to_datetime(..., errors="coerce")` result (`none` is `NaT`, stored as
SQL `NULL`); the four text columns are `none` when a sheet lacked the
column entirely (the fill loop writes `None`). -/
structure CleanRow where
  order_date : Option String
  marketplace : Option String
  sheet : Option String
  sku : Option String
  product_name : Option String
  quantity : Int
  sale : ℚ
  purchase_cost : ℚ
  commission : ℚ
deriving Repr, DecidableEq

/-- One cell of `pd.to_datetime(..., errors="coerce")` as used on the
`date` column of `clean`: parseable date strings survive (kept verbatim,
injectively), numbers parse as epoch timestamps (rendered injectively),
everything else becomes `NaT`. -/
def dateCoerceCell : JVal → Option String
  | .jstr s => if isIsoLike s then some s else none
  | .jnum q => some ("epoch:" ++ toString q.num ++ ":" ++ toString q.den)
  | _ => none

/-- Python `int(x)` truncation toward zero, as in `.astype(int)`. -/
def ratTruncZ (q : ℚ) : Int := if 0 ≤ q then ⌊q⌋ else -⌊-q⌋

/-- Numeric cell after `pd.to_numeric(..., errors="coerce").fillna(0.0)`. -/
def qCell (v : JVal) : ℚ :=
  match toNumCell v with
  | .jnum q => q
  | _ => 0

/-- Quantity cell after
`pd.to_numeric(..., errors="coerce").fillna(1).astype(int)`. -/
def quantityCell (v : JVal) : Int :=
  match toNumCell v with
  | .jnum q => ratTruncZ q
  | _ => 1

/-- Model of `clean` (`src/marketplace_dashboard.py` lines 93-105).
`order_date` comes from coercing the `date` column (all `NaT` when the
column is absent, since `df.get("date")` is then `None`); the four text
columns go through `.astype(str)` when present and are filled `None`
otherwise.  The `quantity`/`sale`/`purchase_cost`/`commission` lines each
evaluate `pd.to_numeric(df.get(col, default), ...).fillna(...)`: when the
column is missing, `df.get` yields the bare scalar default, on which
`.fillna` raises `AttributeError` — so `clean` raises unless all four
columns are present. -/
def clean (df : DataFrame) : Except PyErr (List CleanRow) :=
  let n := df.rows.length
  let dates : List (Option String) :=
    match dfGetCol df "date" with
    | some vs => vs.map dateCoerceCell
    | none => List.replicate n none
  let strCol : String → List (Option String) := fun c =>
    match dfGetCol df c with
    | some vs => vs.map fun v => some (pyStrCell v)
    | none => List.replicate n none
  match dfGetCol df "quantity" with
  | none => .error .attributeError
  | some qs =>
    match dfGetCol df "sale" with
    | none => .error .attributeError
    | some ss =>
      match dfGetCol df "purchase_cost" with
      | none => .error .attributeError
      | some ps =>
        match dfGetCol df "commission" with
        | none => .error .attributeError
        | some cs =>
          .ok ((List.range n).map fun i =>
            { order_date := (dates.getD i none),
              marketplace := ((strCol "marketplace").getD i none),
              sheet := ((strCol "sheet").getD i none),
              sku := ((strCol "sku").getD i none),
              product_name := ((strCol "product_name").getD i none),
              quantity := quantityCell (qs.getD i .jnull),
              sale := qCell (ss.getD i .jnull),
              purchase_cost := qCell (ps.getD i .jnull),
              commission := qCell (cs.getD i .jnull) })

/-- `pd.concat(dfs, ignore_index=True)`: columns in first-seen order,
rows stacked in order, missing cells `NaN`. -/
def pdConcat (dfs : List DataFrame) : DataFrame :=
  let cols := dfs.foldl (fun a d => addCols a d.cols) []
  { cols := cols,
    rows := (dfs.map fun d =>
      d.rows.map fun r =>
        cols.map fun c =>
          match d.cols.findIdx? (fun x => x == c) with
          | some i => r.getD i .jnull
          | none => .jnull).flatten }

/-- The dedup/merge key `(order_date, marketplace, sheet, sku)` of the
`sales` table.  Pandas compares `NaN`/`NaT`/`None` keys as equal to each
other both in `drop_duplicates` and in `merge` join keys, which the
plain equality on `Option String` captures. -/
def keyOf (r : CleanRow) : Option String × Option String × Option String × Option String :=
  (r.order_date, r.marketplace, r.sheet, r.sku)

/-- `big.drop_duplicates(subset=key, keep="first")`. -/
def dedupByKeyAux (seen : List (Option String × Option String × Option String × Option String)) :
    List CleanRow → List CleanRow
  | [] => []
  | r :: rest =>
    if keyOf r ∈ seen then dedupByKeyAux seen rest
    else r :: dedupByKeyAux (keyOf r :: seen) rest

/-- Within-batch dedup on the table key, keeping first occurrences. -/
def dedupByKey (l : List CleanRow) : List CleanRow := dedupByKeyAux [] l

/-- Model of `import_to_db` (`src/marketplace_dashboard.py` lines
107-129) against a `sales` table modelled as its list of rows: clean the
concatenation, drop within-batch key duplicates, read the existing keys,
anti-join (`merge(..., indicator=True)` keeping `left_only`), and append
the remainder, returning the new table and the inserted row count.  An
exception anywhere (e.g. inside `clean`) propagates before `to_sql` runs,
leaving the table unchanged. -/
def import_to_db (table : List CleanRow) (dfs : List DataFrame) :
    Except PyErr (List CleanRow × Nat) :=
  if dfs.isEmpty then .ok (table, 0)
  else
    (clean (pdConcat dfs)).bind fun big0 =>
      let big1 := dedupByKey big0
      let existing := table.map keyOf
      let big2 :=
        if existing.isEmpty then big1
        else big1.filter fun r => decide (keyOf r ∉ existing)
      if big2.isEmpty then .ok (table, 0)
      else .ok (table ++ big2, big2.length)

/-- One call of `import_to_db` as a state transition on the `sales`
table: a raised exception leaves the table as it was (nothing is written
before the final `to_sql`). -/
def importStep (table : List CleanRow) (dfs : List DataFrame) : List CleanRow :=
  match import_to_db table dfs with
  | .ok p => p.1
  | .error _ => table

/-- A whole history of `import_to_db` calls starting from the empty table
created by the `CREATE TABLE IF NOT EXISTS sales` initialization. -/
def runImports (calls : List (List DataFrame)) : List CleanRow :=
  calls.foldl importStep []

/-- One filtered `sales` row as used by the dashboard aggregations
(`filt` in `main`): only the fields the KPI and Riepilogo read. -/
structure FiltRow where
  marketplace : String
  sale : ℚ
  purchase_cost : ℚ
  commission : ℚ

/-- The overall KPI `Margine Lordo` (`src/marketplace_dashboard.py`
lines 252-256): `filt["sale"].sum() - (filt["purchase_cost"].sum() +
filt["commission"].sum())`. -/
def margineLordoKPI (rows : List FiltRow) : ℚ :=
  (rows.map FiltRow.sale).sum -
    ((rows.map FiltRow.purchase_cost).sum + (rows.map FiltRow.commission).sum)

/-- The distinct marketplaces of the filtered rows — the group keys of
`filt.groupby("marketplace")` (pandas sorts them; summation below does
not depend on the order). -/
def marketplacesOf (rows : List FiltRow) : List String :=
  (rows.map FiltRow.marketplace).dedup

/-- The per-marketplace `margine_lordo` column of the Riepilogo
marketplace table (lines 275-282): for each group, `vendite - (acquisto +
commissione)` of that group's sums. -/
def riepilogoMargini (rows : List FiltRow) : List ℚ :=
  (marketplacesOf rows).map fun m =>
    let g := rows.filter fun r => r.marketplace == m
    (g.map FiltRow.sale).sum -
      ((g.map FiltRow.purchase_cost).sum + (g.map FiltRow.commission).sum)

/-- Spec-side reading of C4: the batch "returned" by a response, i.e. the
`orders` list of its JSON body (empty when absent). -/
def specBatchW (r : HttpResp) : List JVal :=
  match r.body with
  | .jobj fs =>
    match (jLookup fs "orders").getD (.jarr []) with
    | .jarr xs => xs
    | _ => []
  | _ => []

/-- Spec-side reading of C4: the `total_count` reported by a response
(0 when absent, matching the code's `.get("total_count", 0)`). -/
def specTotalW (r : HttpResp) : ℚ :=
  match r.body with
  | .jobj fs =>
    match (jLookup fs "total_count").getD (.jnum 0) with
    | .jnum q => q
    | _ => 0
  | _ => 0

/-- C4 verbatim, written from the claim's words rather than from the
code: accumulate the in-order concatenation of the returned batches,
advance the offset by exactly each batch's length, and stop at the first
empty batch or as soon as the offset reaches the total_count reported by
the current response (`none` = the responses run out first). -/
def pageSpec : List HttpResp → Nat → List JVal → Option (List JVal)
  | [], _, _ => none
  | r :: rest, off, acc =>
    let b := specBatchW r
    if b.isEmpty then some acc
    else if ((off + b.length : Nat) : ℚ) ≥ specTotalW r then some (acc ++ b)
    else pageSpec rest (off + b.length) (acc ++ b)

/-- Well-formed page response for `get_orders_worten`: success status, a
JSON object body whose `orders` (defaulted) is a list and whose
`total_count` (defaulted) is a number. -/
def wfRespW (r : HttpResp) : Prop :=
  r.status < 400 ∧ ∃ fs xs q, r.body = .jobj fs ∧
    (jLookup fs "orders").getD (.jarr []) = .jarr xs ∧
    (jLookup fs "total_count").getD (.jnum 0) = .jnum q

/-- C5's precondition on one `get_orders_worten` response: success
status, list-valued `orders`, and a reported `total_count` equal to the
fixed `N`. -/
def wfRespWN (N : Nat) (r : HttpResp) : Prop :=
  r.status < 400 ∧ ∃ fs xs, r.body = .jobj fs ∧
    (jLookup fs "orders").getD (.jarr []) = .jarr xs ∧
    jLookup fs "total_count" = some (.jnum N)

/-- The batch `WortenAPI.get_orders` extracts:
`payload.get("orders", []) or payload.get("data", [])`. -/
def specBatchCls (r : HttpResp) : List JVal :=
  match r.body with
  | .jobj fs =>
    match pyOr ((jLookup fs "orders").getD (.jarr [])) ((jLookup fs "data").getD (.jarr [])) with
    | .jarr xs => xs
    | _ => []
  | _ => []

/-- C5's precondition on one `WortenAPI.get_orders` response. -/
def wfRespClsN (N : Nat) (r : HttpResp) : Prop :=
  r.status < 400 ∧ ∃ fs xs, r.body = .jobj fs ∧
    pyOr ((jLookup fs "orders").getD (.jarr [])) ((jLookup fs "data").getD (.jarr [])) = .jarr xs ∧
    jLookup fs "total_count" = some (.jnum N)

/-- C5's precondition on a whole response sequence, tracking the offset
the loop would have after each batch: every response whose request is
made at an offset below `N` returns a non-empty batch. -/
def nonEmptyWhenBelow (batchOf : HttpResp → List JVal) (N : Nat) : Nat → List HttpResp → Prop
  | _, [] => True
  | off, r :: rest =>
    (off < N → batchOf r ≠ []) ∧ nonEmptyWhenBelow batchOf N (off + (batchOf r).length) rest

/-- C2's counterexample input: a parsed-sheet DataFrame (it has the
essential `date` and `sale` columns plus the `sheet`/`marketplace` tags
that `parse_excel` adds) with no `Qta`/`Acquisto`/`C. Market` columns,
so `clean` hits `pd.to_numeric(df.get("quantity", 1), ...).fillna(1)` on
a scalar. -/
def c2BadDF : DataFrame :=
  ⟨["date", "sale", "sheet", "marketplace"],
   [[.jstr "2024-01-02", .jnum 5, .jstr "S", .jstr "M"]]⟩

/-- C2's witness input: a parsed-sheet DataFrame carrying all the columns
`clean` needs. -/
def c2GoodDF : DataFrame :=
  ⟨["date", "sale", "sheet", "marketplace", "quantity", "purchase_cost", "commission", "sku", "product_name"],
   [[.jstr "2024-01-02", .jnum 5, .jstr "S", .jstr "M", .jnum 2, .jnum 1, .jnum 1, .jstr "K", .jstr "P"]]⟩

/-- The `sales` table row that importing `c2GoodDF` produces. -/
def c2Table : List CleanRow :=
  [{ order_date := some "2024-01-02", marketplace := some "M", sheet := some "S",
     sku := some "K", product_name := some "P", quantity := 2, sale := 5,
     purchase_cost := 1, commission := 1 }]

/-- C3's counterexample order: `total_price` is a (truthy) list, so the
loop body's `float(sale)` raises `TypeError` although every HTTP response
had status 200. -/
def c3Order : JVal :=
  .jobj [("order_id", .jstr "X"), ("total_price", .jarr [.jnum 1]),
         ("order_lines", .jarr [.jobj []])]

/-- C3's counterexample response: status 200 carrying `c3Order`. -/
def c3OkResp : HttpResp :=
  ⟨200, .jobj [("orders", .jarr [c3Order]), ("total_count", .jnum 1)]⟩

/-- A server-error response for C3's witness. -/
def c3ErrResp : HttpResp := ⟨500, .jnull⟩

/-- C4/C5 witness orders (opaque payloads: pagination never inspects
them). -/
def wOrd (s : String) : JVal := .jstr s

/-- C4's witness responses: two pages reporting `total_count = 3`, with
batches of sizes 2 and 1. -/
def c4r1 : HttpResp :=
  ⟨200, .jobj [("orders", .jarr [wOrd "a", wOrd "b"]), ("total_count", .jnum 3)]⟩

/-- Second page of C4's witness. -/
def c4r2 : HttpResp :=
  ⟨200, .jobj [("orders", .jarr [wOrd "c"]), ("total_count", .jnum 3)]⟩

/-- C5's witness responses (for both loops): three one-order pages
reporting `total_count = 2`; the loop stops after two. -/
def c5resp (s : String) : HttpResp :=
  ⟨200, .jobj [("orders", .jarr [wOrd s]), ("total_count", .jnum 2)]⟩

/-- C6's failing-input order: it has an id key, a date, a `price` and a
`taxAmount`, but no key containing `commission`. -/
def c6Order : JVal :=
  .jobj [("code", .jstr "A1"), ("creationDate", .jstr "2024-01-02T03:04:05Z"),
         ("price", .jnum 10), ("taxAmount", .jnum 2)]

/-- C6's failing-input response. -/
def c6Resp : HttpResp :=
  ⟨200, .jobj [("orders", .jarr [c6Order]), ("total_count", .jnum 1)]⟩

/-- C7's counterexample response: a 200 page with an empty `orders`
batch, so `get_orders_worten` takes the `if not all_orders` early return. -/
def c7EmptyResp : HttpResp := ⟨200, .jobj [("orders", .jarr [])]⟩

/-- C7's witness order: every normalization step finds its column. -/
def c7Order : JVal :=
  .jobj [("code", .jstr "A1"), ("creationDate", .jstr "2024-01-02T03:04:05Z"),
         ("price", .jnum 10), ("taxAmount", .jnum 2),
         ("commissionFee", .jnum 3), ("shippingPrice", .jnum 4),
         ("order_state_label", .jstr "ok"),
         ("orderLines", .jarr [.jobj [("productTitle", .jstr "Widget")]])]

/-- C7's witness response. -/
def c7Resp : HttpResp :=
  ⟨200, .jobj [("orders", .jarr [c7Order]), ("total_count", .jnum 1)]⟩

/-- The DataFrame `get_orders_worten` returns on `c7Resp`. -/
def c7DF : DataFrame :=
  ⟨worten8Cols,
   [[.jstr "A1", .jstr "2024-01-02", .jnum 10, .jnum 2, .jnum 3, .jnum 4,
     .jstr "ok", .jstr "Widget"]]⟩

/-- C9's witness order: a truthy `shipping_price` together with a
`tax_amount`, and one order line. -/
def c9Fields : List (String × JVal) :=
  [("shipping_price", .jnum 5), ("tax_amount", .jnum 2),
   ("order_lines", .jarr [.jobj []])]

/-- C10's witness order: neither `order_lines` nor `items` present. -/
def c10Fields : List (String × JVal) := [("order_id", .jstr "Z"), ("total_price", .jnum 7)]

/-- The single row `WortenAPI.get_orders` builds from `c9Fields`. -/
def c9Row : ORow :=
  { order_id := .jnull, order_date := .jnull, order_status := .jstr "",
    sale_price := 0, taxes := 5, commission := 0, shipping := 5,
    sku := .jstr "", product_name := .jstr "" }

/-! ## Theorems -/

/-- Equal truthiness-winning heads give equal `or`-chains, whatever the
tails: Python `a or b or ...` is decided by the first truthy operand. -/
theorem pyOrChain_align (a b : JVal) (l1 l2 : List JVal) (d1 d2 : JVal)
    (h : truthy a = true ∨ truthy b = true) :
    pyOrChain (a :: b :: l1) d1 = pyOrChain (a :: b :: l2) d2 := by
  by_cases ha : truthy a = true
  · simp [pyOrChain, pyOr, ha]
  · have hb : truthy b = true := by
      rcases h with h | h
      · exact absurd h ha
      · exact h
    simp [pyOrChain, pyOr, ha, hb]

/-- A `wortenLineRow` whose taxes source and shipping source are the same
value emits equal `taxes` and `shipping`. -/
theorem wortenLineRow_taxes_eq_shipping (oid dt status sale v comm line : JVal) (r : ORow)
    (h : wortenLineRow oid dt status sale v comm v line = .ok r) :
    r.taxes = r.shipping := by
  cases line with
  | jobj ls =>
    simp only [wortenLineRow] at h
    cases h1 : pyFloat sale with
    | error e => simp [h1, Except.bind] at h
    | ok sp =>
      cases h2 : pyFloat v with
      | error e => simp [h1, h2, Except.bind] at h
      | ok tx0 =>
        cases h3 : pyFloat comm with
        | error e => simp [h1, h2, h3, Except.bind] at h
        | ok cm =>
          simp only [h1, h2, h3, Except.bind, Except.map, Except.ok.injEq] at h
          rw [← h]
  | jnull => simp [wortenLineRow] at h
  | jbool b => simp [wortenLineRow] at h
  | jnum q => simp [wortenLineRow] at h
  | jstr s => simp [wortenLineRow] at h
  | jarr xs => simp [wortenLineRow] at h

/-- Rows produced by `buildRowsList` all satisfy any property preserved
by the per-line builder. -/
theorem buildRowsList_mem_prop {P : ORow → Prop} (build : JVal → Except PyErr ORow)
    (hb : ∀ l r, build l = .ok r → P r) :
    ∀ (ls : List JVal) (rows : List ORow), buildRowsList build ls = .ok rows → ∀ r ∈ rows, P r := by
  intro ls
  induction ls with
  | nil =>
    intro rows h r hr
    simp only [buildRowsList, Except.ok.injEq] at h
    subst h
    simp at hr
  | cons l t ih =>
    intro rows h r hr
    simp only [buildRowsList] at h
    cases h1 : build l with
    | error e => simp [h1, Except.bind] at h
    | ok r0 =>
      cases h2 : buildRowsList build t with
      | error e => simp [h1, h2, Except.bind, Except.map] at h
      | ok rest =>
        simp only [h1, h2, Except.bind, Except.map, Except.ok.injEq] at h
        subst h
        rcases List.mem_cons.mp hr with h | h
        · rw [h]; exact hb l r0 h1
        · exact ih rest h2 r h

/-- C9: in `WortenAPI.get_orders`, for every order carrying a truthy
`shipping_price` or `shippingPrice` field, every row emitted for that
order has its `taxes` value equal to its `shipping` value, whatever
`tax_amount`/`taxAmount` the order also carries: both `or`-chains consult
the two shipping fields first, so they resolve to the same value. -/
theorem c9_shipping_overrides_taxes (fs : List (String × JVal))
    (h : truthy ((jLookup fs "shipping_price").getD .jnull) = true ∨
         truthy ((jLookup fs "shippingPrice").getD .jnull) = true)
    (rows : List ORow) (hrun : wortenRowsForOrder (.jobj fs) = .ok rows) :
    ∀ r ∈ rows, r.taxes = r.shipping := by
  simp only [wortenRowsForOrder] at hrun
  rw [pyOrChain_align ((jLookup fs "shipping_price").getD .jnull)
      ((jLookup fs "shippingPrice").getD .jnull)
      [(jLookup fs "tax_amount").getD .jnull, (jLookup fs "taxAmount").getD .jnull]
      [(jLookup fs "shipping_amount").getD .jnull, (jLookup fs "shippingAmount").getD .jnull]
      (.jnum 0) (.jnum 0) h] at hrun
  cases hl : asIterList (pyOr ((jLookup fs "order_lines").getD (.jarr []))
      ((jLookup fs "items").getD (.jarr []))) with
  | error e => simp [hl, Except.bind] at hrun
  | ok lines =>
    rw [hl] at hrun
    simp only [Except.bind] at hrun
    exact buildRowsList_mem_prop _
      (fun l r hlr => wortenLineRow_taxes_eq_shipping _ _ _ _ _ _ l r hlr) lines rows hrun

/-- Witness for C9 at the concrete order `c9Fields` (truthy
`shipping_price = 5` beats `tax_amount = 2`; the emitted row has
`taxes = shipping = 5`). -/
theorem c9_shipping_overrides_taxes_witness :
    (truthy ((jLookup c9Fields "shipping_price").getD .jnull) = true ∨
     truthy ((jLookup c9Fields "shippingPrice").getD .jnull) = true) ∧
    wortenRowsForOrder (.jobj c9Fields) = .ok [c9Row] ∧ c9Row.taxes = c9Row.shipping :=
  ⟨Or.inl rfl, rfl,
    c9_shipping_overrides_taxes c9Fields (Or.inl rfl) [c9Row] rfl c9Row
      (List.mem_singleton.mpr rfl)⟩

/-- Removing an order that contributes no rows does not change the rows
`WortenAPI.get_orders` builds (nor whether the build raises). -/
theorem wortenOrdersToRows_middle (x : JVal) (hx : wortenRowsForOrder x = .ok [])
    (os1 os2 : List JVal) :
    wortenOrdersToRows (os1 ++ x :: os2) = wortenOrdersToRows (os1 ++ os2) := by
  induction os1 with
  | nil =>
    simp only [List.nil_append, wortenOrdersToRows, hx, Except.bind]
    cases h : wortenOrdersToRows os2 <;> simp [Except.map, h]
  | cons a t ih =>
    simp only [List.cons_append, wortenOrdersToRows, List.append_eq, ih]

/-- Removing an order that contributes no rows does not change the rows
`LeroyMerlinAPI.get_orders` builds. -/
theorem lmOrdersToRows_middle (x : JVal) (hx : lmRowsForOrder x = .ok [])
    (os1 os2 : List JVal) :
    lmOrdersToRows (os1 ++ x :: os2) = lmOrdersToRows (os1 ++ os2) := by
  induction os1 with
  | nil =>
    simp only [List.nil_append, lmOrdersToRows, hx, Except.bind]
    cases h : lmOrdersToRows os2 <;> simp [Except.map, h]
  | cons a t ih =>
    simp only [List.cons_append, lmOrdersToRows, List.append_eq, ih]

/-- C10: in `WortenAPI.get_orders` and `LeroyMerlinAPI.get_orders`, an
order whose `order_lines` and `items` fields are both missing or empty
contributes no row at all (`o.get("order_lines", []) or o.get("items",
[])` is the empty list, so the per-line loop body never runs), and
removing such an order from the fetched list leaves the built rows — and
hence every aggregate computed from the returned DataFrame — unchanged. -/
theorem c10_empty_lines_no_rows (fs : List (String × JVal))
    (h1 : jLookup fs "order_lines" = none ∨ jLookup fs "order_lines" = some (.jarr []))
    (h2 : jLookup fs "items" = none ∨ jLookup fs "items" = some (.jarr [])) :
    wortenRowsForOrder (.jobj fs) = .ok [] ∧ lmRowsForOrder (.jobj fs) = .ok [] ∧
    (∀ os1 os2, wortenOrdersToRows (os1 ++ .jobj fs :: os2) = wortenOrdersToRows (os1 ++ os2)) ∧
    (∀ os1 os2, lmOrdersToRows (os1 ++ .jobj fs :: os2) = lmOrdersToRows (os1 ++ os2)) := by
  have e1 : (jLookup fs "order_lines").getD (.jarr []) = .jarr [] := by
    rcases h1 with h | h <;> simp [h]
  have e2 : (jLookup fs "items").getD (.jarr []) = .jarr [] := by
    rcases h2 with h | h <;> simp [h]
  have hw : wortenRowsForOrder (.jobj fs) = .ok [] := by
    simp [wortenRowsForOrder, e1, e2, pyOr, truthy, asIterList, buildRowsList, Except.bind]
  have hl : lmRowsForOrder (.jobj fs) = .ok [] := by
    simp [lmRowsForOrder, e1, e2, pyOr, truthy, asIterList, buildRowsList, Except.bind]
  exact ⟨hw, hl, fun os1 os2 => wortenOrdersToRows_middle _ hw os1 os2,
    fun os1 os2 => lmOrdersToRows_middle _ hl os1 os2⟩

/-- Witness for C10 at the concrete order `c10Fields` (no `order_lines`,
no `items`). -/
theorem c10_empty_lines_no_rows_witness :
    wortenRowsForOrder (.jobj c10Fields) = .ok [] ∧ lmRowsForOrder (.jobj c10Fields) = .ok [] :=
  ⟨(c10_empty_lines_no_rows c10Fields (Or.inl rfl) (Or.inl rfl)).1,
   (c10_empty_lines_no_rows c10Fields (Or.inl rfl) (Or.inl rfl)).2.1⟩

/-- Splitting a sum over a list by a Boolean predicate. -/
theorem sum_map_split (p : FiltRow → Bool) (f : FiltRow → ℚ) (l : List FiltRow) :
    ((l.filter p).map f).sum + ((l.filter fun r => !p r).map f).sum = (l.map f).sum := by
  induction l with
  | nil => simp
  | cons a t ih =>
    by_cases h : p a <;> simp [List.filter_cons, h] <;> linarith

/-- A sum over groups of a grouped list equals the ungrouped sum, for any
duplicate-free list of group keys covering every row — the partition fact
behind `groupby("marketplace")` aggregation. -/
theorem groups_sum (f : FiltRow → ℚ) :
    ∀ (ms : List String), ms.Nodup → ∀ (l : List FiltRow), (∀ r ∈ l, r.marketplace ∈ ms) →
    (ms.map fun m => ((l.filter fun r => r.marketplace == m).map f).sum).sum = (l.map f).sum := by
  intro ms
  induction ms with
  | nil =>
    intro _ l hall
    cases l with
    | nil => simp
    | cons r t => exact absurd (hall r (by simp)) (by simp)
  | cons m ms ih =>
    intro hnd l hall
    have hm : m ∉ ms := (List.nodup_cons.mp hnd).1
    have hnd' : ms.Nodup := (List.nodup_cons.mp hnd).2
    have hfilter : ∀ m' ∈ ms, (l.filter fun r => r.marketplace == m') =
        ((l.filter fun r => !(r.marketplace == m)).filter fun r => r.marketplace == m') := by
      intro m' hm'
      rw [List.filter_filter]
      apply List.filter_congr
      intro r _
      by_cases hr : r.marketplace = m'
      · have hne : m' ≠ m := fun e => hm (e ▸ hm')
        simp [hr, hne]
      · simp [hr]
    have htail : (ms.map fun m' => ((l.filter fun r => r.marketplace == m').map f).sum) =
        (ms.map fun m' => (((l.filter fun r => !(r.marketplace == m)).filter
          fun r => r.marketplace == m').map f).sum) := by
      apply List.map_congr_left
      intro m' hm'
      rw [hfilter m' hm']
    have hall' : ∀ r ∈ (l.filter fun r => !(r.marketplace == m)), r.marketplace ∈ ms := by
      intro r hr
      rcases List.mem_filter.mp hr with ⟨hrl, hrb⟩
      have := hall r hrl
      rcases List.mem_cons.mp this with h | h
      · exfalso; simp [h] at hrb
      · exact h
    simp only [List.map_cons, List.sum_cons, htail]
    rw [ih hnd' _ hall']
    exact sum_map_split (fun r => r.marketplace == m) f l

/-- Distributing a list sum over the per-group `vendite - (acquisto +
commissione)` combination. -/
theorem sum_map_sub_add (ms : List String) (A B C : String → ℚ) :
    (ms.map fun m => A m - (B m + C m)).sum = (ms.map A).sum - ((ms.map B).sum + (ms.map C).sum) := by
  induction ms with
  | nil => simp
  | cons m t ih => simp only [List.map_cons, List.sum_cons, ih]; ring

/-- C8: for any fixed set of filtered sales rows, the overall KPI
`Margine Lordo` (total sale minus total purchase_cost plus commission)
equals the sum over marketplaces of the per-marketplace `margine_lordo`
of the Riepilogo marketplace table (`vendite - (acquisto +
commissione)` per group). -/
theorem c8_margine_lordo_partition (rows : List FiltRow) :
    margineLordoKPI rows = (riepilogoMargini rows).sum := by
  unfold margineLordoKPI riepilogoMargini marketplacesOf
  have hnd := List.nodup_dedup (rows.map FiltRow.marketplace)
  have hall : ∀ r ∈ rows, r.marketplace ∈ (rows.map FiltRow.marketplace).dedup := fun r hr =>
    List.mem_dedup.mpr (List.mem_map_of_mem _ hr)
  rw [sum_map_sub_add]
  rw [groups_sum FiltRow.sale _ hnd rows hall,
      groups_sum FiltRow.purchase_cost _ hnd rows hall,
      groups_sum FiltRow.commission _ hnd rows hall]

/-- `drop_duplicates` on the key: the kept rows have pairwise distinct
keys, none of which lies in the already-seen set. -/
theorem dedupByKeyAux_props : ∀ (l : List CleanRow) (seen),
    ((dedupByKeyAux seen l).map keyOf).Nodup ∧
    ∀ k ∈ (dedupByKeyAux seen l).map keyOf, k ∉ seen := by
  intro l
  induction l with
  | nil => intro seen; simp [dedupByKeyAux]
  | cons r rest ih =>
    intro seen
    by_cases h : keyOf r ∈ seen
    · simpa [dedupByKeyAux, h] using ih seen
    · have ih' := ih (keyOf r :: seen)
      simp only [dedupByKeyAux, if_neg h, List.map_cons, List.nodup_cons]
      refine ⟨⟨fun hmem => ?_, ih'.1⟩, ?_⟩
      · exact (ih'.2 _ hmem) (List.mem_cons_self _ _)
      · intro k hk
        rcases List.mem_cons.mp hk with hk | hk
        · rw [hk]; exact h
        · exact fun hks => (ih'.2 k hk) (List.mem_cons_of_mem _ hks)

/-- One successful `import_to_db` call preserves uniqueness of the
`(order_date, marketplace, sheet, sku)` key over the `sales` table: the
batch is deduplicated on the key, and only rows whose key is absent from
the table survive the anti-join before the append. -/
theorem import_to_db_nodup (table : List CleanRow) (dfs : List DataFrame)
    (t' : List CleanRow) (n : Nat) (hnd : (table.map keyOf).Nodup)
    (h : import_to_db table dfs = .ok (t', n)) : (t'.map keyOf).Nodup := by
  by_cases hdfs : dfs.isEmpty
  · simp only [import_to_db, if_pos hdfs, Except.ok.injEq, Prod.mk.injEq] at h
    rw [← h.1]; exact hnd
  · simp only [import_to_db, if_neg hdfs] at h
    cases hc : clean (pdConcat dfs) with
    | error e => simp [hc, Except.bind] at h
    | ok big0 =>
      simp only [hc, Except.bind] at h
      set big1 := dedupByKey big0 with hbig1def
      have hbig1 : (big1.map keyOf).Nodup := (dedupByKeyAux_props big0 []).1
      set big2 := if (table.map keyOf).isEmpty then big1
        else big1.filter fun r => decide (keyOf r ∉ table.map keyOf) with hbig2def
      by_cases hb2 : big2.isEmpty
      · simp only [← hbig2def, if_pos hb2, Except.ok.injEq, Prod.mk.injEq] at h
        rw [← h.1]; exact hnd
      · simp only [← hbig2def, if_neg hb2, Except.ok.injEq, Prod.mk.injEq] at h
        rw [← h.1]
        rw [List.map_append]
        by_cases hex : (table.map keyOf).isEmpty
        · have htab : table = [] := by
            cases table with
            | nil => rfl
            | cons a b => simp at hex
          subst htab
          simpa using by rw [hbig2def]; simp [hex]; exact hbig1
        · have hb2f : big2 = big1.filter fun r => decide (keyOf r ∉ table.map keyOf) := by
            rw [hbig2def, if_neg hex]
          apply List.Nodup.append hnd
          · rw [hb2f]
            exact ((List.filter_sublist big1).map keyOf).nodup hbig1
          · intro k hk1 hk2
            rcases List.mem_map.mp hk2 with ⟨r, hr, hrk⟩
            rw [hb2f] at hr
            rcases List.mem_filter.mp hr with ⟨_, hrb⟩
            have : keyOf r ∉ table.map keyOf := of_decide_eq_true hrb
            exact this (hrk ▸ hk1)

/-- C1: over every sequence of `import_to_db` calls starting from the
freshly created `sales` table, the table never contains two rows with the
same `(order_date, marketplace, sheet, sku)` key — each call drops
within-batch duplicates on the key and inserts only rows whose key is not
already present (a call that raises leaves the table untouched, since
nothing is written before the final `to_sql`). -/
theorem c1_sales_key_unique (calls : List (List DataFrame)) :
    ((runImports calls).map keyOf).Nodup := by
  have h : ∀ (cs : List (List DataFrame)) (t : List CleanRow), (t.map keyOf).Nodup →
      ((cs.foldl importStep t).map keyOf).Nodup := by
    intro cs
    induction cs with
    | nil => intro t ht; simpa using ht
    | cons c cstail ih =>
      intro t ht
      simp only [List.foldl_cons]
      apply ih
      unfold importStep
      cases hstep : import_to_db t c with
      | error e => exact ht
      | ok p => exact import_to_db_nodup t c p.1 p.2 ht hstep
  simpa [runImports] using h calls [] (by simp)

/-- C2 (amended): whenever a first `import_to_db` call on a list of
parsed sheet DataFrames returns normally, a second call with the same
list immediately after inserts no rows, returns 0, and leaves every row
of the `sales` table exactly as the first call left it — every key of the
deduplicated batch is by then present in the table, so the anti-join
keeps nothing. -/
theorem c2_import_idempotent_amended (t0 t1 : List CleanRow) (n1 : Nat) (dfs : List DataFrame)
    (h : import_to_db t0 dfs = .ok (t1, n1)) :
    import_to_db t1 dfs = .ok (t1, 0) := by
  by_cases hdfs : dfs.isEmpty
  · simp only [import_to_db, if_pos hdfs]
  · simp only [import_to_db, if_neg hdfs] at h ⊢
    cases hc : clean (pdConcat dfs) with
    | error e => simp [hc, Except.bind] at h
    | ok big0 =>
      simp only [hc, Except.bind] at h ⊢
      have closer : ∀ (t : List CleanRow), (∀ r ∈ dedupByKey big0, keyOf r ∈ t.map keyOf) →
          (t.map keyOf).isEmpty = false →
          (if (if (t.map keyOf).isEmpty = true then dedupByKey big0
              else List.filter (fun r => decide (keyOf r ∉ t.map keyOf)) (dedupByKey big0)).isEmpty =
              true then
            Except.ok (t, 0)
          else
            Except.ok
              (t ++ if (t.map keyOf).isEmpty = true then dedupByKey big0
                  else List.filter (fun r => decide (keyOf r ∉ t.map keyOf)) (dedupByKey big0),
                (if (t.map keyOf).isEmpty = true then dedupByKey big0
                  else List.filter (fun r => decide (keyOf r ∉ t.map keyOf))
                    (dedupByKey big0)).length)) = (.ok (t, 0) : Except PyErr (List CleanRow × Nat)) := by
        intro t hsub hne
        have hfe : (List.filter (fun r => decide (keyOf r ∉ t.map keyOf)) (dedupByKey big0)) = [] :=
          List.filter_eq_nil_iff.mpr (fun r hr => by simp [hsub r hr])
        have e1 : (if (t.map keyOf).isEmpty = true then dedupByKey big0
            else List.filter (fun r => decide (keyOf r ∉ t.map keyOf)) (dedupByKey big0)) =
            List.filter (fun r => decide (keyOf r ∉ t.map keyOf)) (dedupByKey big0) :=
          if_neg (by simp [hne])
        rw [e1, hfe]
        simp
      by_cases hex : (t0.map keyOf).isEmpty
      · have ht0 : t0 = [] := List.map_eq_nil_iff.mp (List.isEmpty_iff.mp hex)
        subst ht0
        rw [if_pos hex] at h
        by_cases hb : (dedupByKey big0).isEmpty
        · rw [if_pos hb] at h
          have h1 : t1 = [] := ((Prod.mk.injEq _ _ _ _).mp ((Except.ok.injEq _ _).mp h)).1.symm
          subst h1
          simp [hb]
        · rw [if_neg hb] at h
          have h1 : t1 = dedupByKey big0 :=
            ((Prod.mk.injEq _ _ _ _).mp ((Except.ok.injEq _ _).mp h)).1.symm.trans
              (List.nil_append _)
          rw [h1]
          apply closer
          · intro r hr; exact List.mem_map_of_mem keyOf hr
          · cases he : dedupByKey big0 with
            | nil => rw [he] at hb; simp at hb
            | cons a b => simp
      · rw [if_neg hex] at h
        by_cases hb2 : (List.filter (fun r => decide (keyOf r ∉ t0.map keyOf)) (dedupByKey big0)).isEmpty
        · rw [if_pos hb2] at h
          have h1 : t1 = t0 := ((Prod.mk.injEq _ _ _ _).mp ((Except.ok.injEq _ _).mp h)).1.symm
          rw [h1]
          have e1 : (if (List.map keyOf t0).isEmpty = true then dedupByKey big0
              else List.filter (fun r => decide (keyOf r ∉ List.map keyOf t0)) (dedupByKey big0)) =
              List.filter (fun r => decide (keyOf r ∉ List.map keyOf t0)) (dedupByKey big0) :=
            if_neg hex
          rw [e1, if_pos hb2]
        · rw [if_neg hb2] at h
          have h1 : t1 = t0 ++ List.filter (fun r => decide (keyOf r ∉ t0.map keyOf)) (dedupByKey big0) :=
            ((Prod.mk.injEq _ _ _ _).mp ((Except.ok.injEq _ _).mp h)).1.symm
          rw [h1]
          apply closer
          · intro r hr
            rw [List.map_append, List.mem_append]
            by_cases hk : keyOf r ∈ t0.map keyOf
            · exact Or.inl hk
            · refine Or.inr (List.mem_map_of_mem keyOf ?_)
              exact List.mem_filter.mpr ⟨hr, by simpa using hk⟩
          · rw [List.map_append]
            cases he : t0.map keyOf with
            | nil => exact absurd (List.isEmpty_iff.mpr he) (by simpa using hex)
            | cons a b => simp

/-- Counterexample to C2 as stated: on the parsed-sheet DataFrame
`c2BadDF` (no `Qta`/`Acquisto`/`C. Market` columns), the first call
raises `AttributeError` inside `clean` (scalar `.fillna`), so the second
call — made on the unchanged table — raises as well instead of returning
0. -/
theorem c2_counterexample :
    import_to_db (importStep [] [c2BadDF]) [c2BadDF] = .error .attributeError := rfl

/-- Witness for C2's amended theorem at the concrete import of
`c2GoodDF`: the first call inserts one row, the second returns the same
table and 0. -/
theorem c2_import_idempotent_amended_witness :
    import_to_db [] [c2GoodDF] = .ok (c2Table, 1) ∧
    import_to_db c2Table [c2GoodDF] = .ok (c2Table, 0) :=
  ⟨rfl, c2_import_idempotent_amended [] c2Table 1 [c2GoodDF] rfl⟩

/-- C6 (evaluating the code at the failing input): when no normalized
column name contains `"commission"`, `ccol` is `None`, `df.get(None, 0)`
yields the bare scalar `0`, `pd.to_numeric` keeps it a scalar, and its
`.fillna(0.0)` raises `AttributeError` — on `c6Resp` the whole
`get_orders_worten` call therefore crashes instead of filling the
commission column with 0.0.  The first conjunct shows the no-match path
of the shared `df[target] = pd.to_numeric(df.get(key, 0),
errors="coerce").fillna(0.0)` step raises for every DataFrame. -/
theorem c6_missing_commission_column_crashes :
    (∀ df : DataFrame, numFillStep df "commission" none = .error .attributeError) ∧
    get_orders_worten [c6Resp] = .error .attributeError :=
  ⟨fun _ => rfl, rfl⟩

/-- Successful `df[[...]]` selection returns exactly the requested
columns in the requested order. -/
theorem dfSelect_ok_cols (cs : List String) (d df : DataFrame) (h : dfSelect cs d = .ok df) :
    df.cols = cs := by
  unfold dfSelect at h
  split at h
  · rw [← ((Except.ok.injEq _ _).mp h)]
  · exact Except.noConfusion h

/-- C7 (amended): every DataFrame that `get_orders_worten` returns with
at least one row has exactly the eight canonical columns `order_id,
order_date, sale_price, taxes, commission, shipping, order_status,
product_name`, in that order; the zero-order early return instead
produces `pd.DataFrame()` with no columns at all (see the
counterexample). -/
theorem c7_nonempty_has_eight_cols (rs : List HttpResp) (df : DataFrame)
    (h : get_orders_worten rs = .ok df) (hrows : df.rows ≠ []) :
    df.cols = worten8Cols := by
  unfold get_orders_worten at h
  cases hp : paginateWorten rs 0 [] with
  | error e => simp [hp, Except.bind] at h
  | ok p =>
    simp only [hp, Except.bind] at h
    by_cases he : p.1.isEmpty
    · rw [if_pos he] at h
      have hdf := (Except.ok.injEq _ _).mp h
      rw [← hdf] at hrows
      simp at hrows
    · rw [if_neg he] at h
      cases hn : wortenNormCore p.1 with
      | error e => simp [hn, Except.bind] at h
      | ok d =>
        rw [hn] at h
        simp only [Except.bind] at h
        exact dfSelect_ok_cols worten8Cols d df h

/-- Counterexample to C7 as stated: with zero fetched orders the function
returns the bare `pd.DataFrame()` — no columns — rather than the eight
canonical columns. -/
theorem c7_counterexample :
    get_orders_worten [c7EmptyResp] = .ok ⟨[], []⟩ ∧ ([] : List String) ≠ worten8Cols :=
  ⟨rfl, by decide⟩

/-- Witness for C7's amended theorem on a concrete successful one-order
fetch. -/
theorem c7_nonempty_has_eight_cols_witness :
    get_orders_worten [c7Resp] = .ok c7DF ∧ c7DF.rows ≠ [] ∧ c7DF.cols = worten8Cols :=
  ⟨rfl, by simp [c7DF], c7_nonempty_has_eight_cols [c7Resp] c7DF rfl (by simp [c7DF])⟩

/-- If the `get_orders_worten` loop reaches a 4xx/5xx response, it raises
`HTTPError` immediately; otherwise it stopped among the preceding
successful responses and the bad response was never requested. -/
theorem paginateWorten_bad_received (bad : HttpResp) (hb : 400 ≤ bad.status) :
    ∀ (good : List HttpResp) (rest : List HttpResp), (∀ r ∈ good, r.status < 400) →
    ∀ (off : Nat) (acc : List JVal),
    paginateWorten (good ++ bad :: rest) off acc = .error .httpError ∨
    paginateWorten (good ++ bad :: rest) off acc = paginateWorten good off acc := by
  intro good
  induction good with
  | nil =>
    intro rest _ off acc
    left
    simp only [List.nil_append, paginateWorten]
    rw [if_pos hb]
  | cons r t ih =>
    intro rest hg off acc
    have hr : r.status < 400 := hg r (List.mem_cons_self _ _)
    simp only [List.cons_append, paginateWorten, List.append_eq]
    rw [if_neg (by omega), if_neg (by omega)]
    cases h1 : jGetD r.body "orders" (.jarr []) with
    | error e => right; rfl
    | ok batchv =>
      dsimp only
      by_cases h2 : truthy batchv = false
      · rw [if_pos h2, if_pos h2]; right; rfl
      · rw [if_neg h2, if_neg h2]
        cases h3 : asIterList batchv with
        | error e => right; rfl
        | ok batch =>
          dsimp only
          cases h4 : jGetD r.body "total_count" (.jnum 0) with
          | error e => right; rfl
          | ok tot =>
            dsimp only
            cases h5 : asNumQ tot with
            | error e => right; rfl
            | ok tq =>
              dsimp only
              by_cases h6 : ((off + batch.length : Nat) : ℚ) ≥ tq
              · rw [if_pos h6, if_pos h6]; right; rfl
              · rw [if_neg h6, if_neg h6]
                rcases ih rest (fun x hx => hg x (List.mem_cons_of_mem _ hx))
                    (off + batch.length) (acc ++ batch) with hL | hR
                · left; rw [hL]
                · right; rw [hR]

/-- The `WortenAPI.get_orders` analogue of `paginateWorten_bad_received`. -/
theorem paginateWortenCls_bad_received (bad : HttpResp) (hb : 400 ≤ bad.status) :
    ∀ (good : List HttpResp) (rest : List HttpResp), (∀ r ∈ good, r.status < 400) →
    ∀ (off : Nat) (acc : List JVal),
    paginateWortenCls (good ++ bad :: rest) off acc = .error .httpError ∨
    paginateWortenCls (good ++ bad :: rest) off acc = paginateWortenCls good off acc := by
  intro good
  induction good with
  | nil =>
    intro rest _ off acc
    left
    simp only [List.nil_append, paginateWortenCls]
    rw [if_pos hb]
  | cons r t ih =>
    intro rest hg off acc
    have hr : r.status < 400 := hg r (List.mem_cons_self _ _)
    simp only [List.cons_append, paginateWortenCls, List.append_eq]
    rw [if_neg (by omega), if_neg (by omega)]
    cases h1 : jGetD r.body "orders" (.jarr []) with
    | error e => right; rfl
    | ok ov =>
      dsimp only
      cases h1b : jGetD r.body "data" (.jarr []) with
      | error e => right; rfl
      | ok dv =>
        dsimp only
        by_cases h2 : truthy (pyOr ov dv) = false
        · rw [if_pos h2, if_pos h2]; right; rfl
        · rw [if_neg h2, if_neg h2]
          cases h3 : asIterList (pyOr ov dv) with
          | error e => right; rfl
          | ok batch =>
            dsimp only
            cases h4 : jGetD r.body "total_count" (.jnum batch.length) with
            | error e => right; rfl
            | ok tot =>
              dsimp only
              cases h5 : asNumQ tot with
              | error e => right; rfl
              | ok tq =>
                dsimp only
                by_cases h6 : ((off + batch.length : Nat) : ℚ) ≥ tq
                · rw [if_pos h6, if_pos h6]; right; rfl
                · rw [if_neg h6, if_neg h6]
                  rcases ih rest (fun x hx => hg x (List.mem_cons_of_mem _ hx))
                      (off + batch.length) (acc ++ batch) with hL | hR
                  · left; rw [hL]
                  · right; rw [hR]

/-- The `LeroyMerlinAPI.get_orders` analogue of
`paginateWorten_bad_received`. -/
theorem paginateLM_bad_received (bad : HttpResp) (hb : 400 ≤ bad.status) :
    ∀ (good : List HttpResp) (rest : List HttpResp), (∀ r ∈ good, r.status < 400) →
    ∀ (acc : List JVal),
    paginateLM (good ++ bad :: rest) acc = .error .httpError ∨
    paginateLM (good ++ bad :: rest) acc = paginateLM good acc := by
  intro good
  induction good with
  | nil =>
    intro rest _ acc
    left
    simp only [List.nil_append, paginateLM]
    rw [if_pos hb]
  | cons r t ih =>
    intro rest hg acc
    have hr : r.status < 400 := hg r (List.mem_cons_self _ _)
    simp only [List.cons_append, paginateLM, List.append_eq]
    rw [if_neg (by omega), if_neg (by omega)]
    cases h1 : jGetD r.body "orders" (.jarr []) with
    | error e => right; rfl
    | ok ov =>
      dsimp only
      cases h1b : jGetD r.body "data" (.jarr []) with
      | error e => right; rfl
      | ok dv =>
        dsimp only
        by_cases h2 : truthy (pyOr ov dv) = false
        · rw [if_pos h2, if_pos h2]; right; rfl
        · rw [if_neg h2, if_neg h2]
          cases h3 : asIterList (pyOr ov dv) with
          | error e => right; rfl
          | ok batch =>
            dsimp only
            cases h4 : jGetD r.body "next" .jnull with
            | error e => right; rfl
            | ok nxt =>
              dsimp only
              by_cases h5 : truthy nxt = false
              · rw [if_pos h5, if_pos h5]; right; rfl
              · rw [if_neg h5, if_neg h5]
                rcases ih rest (fun x hx => hg x (List.mem_cons_of_mem _ hx))
                    (acc ++ batch) with hL | hR
                · left; rw [hL]
                · right; rw [hR]

/-- C3 (amended, the direction that holds): for each of
`get_orders_worten`, `WortenAPI.get_orders` and
`LeroyMerlinAPI.get_orders`, if the response sequence contains a 4xx/5xx
response after successful ones, then either the bad response is received
during pagination and the call raises exactly the `HTTPError` from
`raise_for_status()` — propagated with no partial result, as an
`Except.error` carries none — or pagination had already stopped among the
successful responses and the call behaves as if the bad response did not
exist.  (The converse of the claim is false: see the counterexample,
where a 200 response makes the call raise `TypeError`.) -/
theorem c3_http_error_propagates (good rest : List HttpResp) (bad : HttpResp)
    (hg : ∀ r ∈ good, r.status < 400) (hb : 400 ≤ bad.status) :
    (get_orders_worten (good ++ bad :: rest) = .error .httpError ∨
      get_orders_worten (good ++ bad :: rest) = get_orders_worten good) ∧
    (wortenClsGetOrders (good ++ bad :: rest) = .error .httpError ∨
      wortenClsGetOrders (good ++ bad :: rest) = wortenClsGetOrders good) ∧
    (lmGetOrders (good ++ bad :: rest) = .error .httpError ∨
      lmGetOrders (good ++ bad :: rest) = lmGetOrders good) := by
  refine ⟨?_, ?_, ?_⟩
  · rcases paginateWorten_bad_received bad hb good rest hg 0 [] with hL | hR
    · left; unfold get_orders_worten; rw [hL]; rfl
    · right; unfold get_orders_worten; rw [hR]
  · rcases paginateWortenCls_bad_received bad hb good rest hg 0 [] with hL | hR
    · left; unfold wortenClsGetOrders; rw [hL]; rfl
    · right; unfold wortenClsGetOrders; rw [hR]
  · rcases paginateLM_bad_received bad hb good rest hg [] with hL | hR
    · left; unfold lmGetOrders; rw [hL]; rfl
    · right; unfold lmGetOrders; rw [hR]

/-- Counterexample to C3 as stated ("if and only if"): on a session whose
single response has status 200, `WortenAPI.get_orders` still raises — the
order's truthy list-valued `total_price` reaches `float(sale)`, a
`TypeError` — so an exception does not imply an HTTP error status. -/
theorem c3_counterexample :
    wortenClsGetOrders [c3OkResp] = .error .typeError ∧ c3OkResp.status = 200 :=
  ⟨rfl, rfl⟩

/-- Witness for C3's amended theorem: a session whose first response is a
500. -/
theorem c3_http_error_propagates_witness :
    (get_orders_worten ([] ++ c3ErrResp :: []) = .error .httpError ∨
      get_orders_worten ([] ++ c3ErrResp :: []) = get_orders_worten []) ∧
    (wortenClsGetOrders ([] ++ c3ErrResp :: []) = .error .httpError ∨
      wortenClsGetOrders ([] ++ c3ErrResp :: []) = wortenClsGetOrders []) ∧
    (lmGetOrders ([] ++ c3ErrResp :: []) = .error .httpError ∨
      lmGetOrders ([] ++ c3ErrResp :: []) = lmGetOrders []) :=
  c3_http_error_propagates [] [] c3ErrResp (fun r hr => absurd hr (List.not_mem_nil r))
    (by decide)

/-- Generalized loop invariant behind C4, over any starting offset equal
to the accumulated length. -/
theorem paginateWorten_spec_aux :
    ∀ (rs : List HttpResp), (∀ r ∈ rs, wfRespW r) →
    ∀ (res : List JVal) (off n : Nat) (off0 : Nat) (acc : List JVal),
    paginateWorten rs off0 acc = .ok (res, off, n) → off0 = acc.length →
    pageSpec rs off0 acc = some res ∧ off = res.length ∧ n ≤ rs.length ∧
    res = acc ++ ((rs.take n).map specBatchW).flatten := by
  intro rs
  induction rs with
  | nil =>
    intro _ res off n off0 acc hrun _
    simp [paginateWorten] at hrun
  | cons r rest ih =>
    intro hwf res off n off0 acc hrun hacc
    obtain ⟨hst, fs, xs, q, hbody, hord, htot⟩ := hwf r (List.mem_cons_self _ _)
    have hb : specBatchW r = xs := by simp [specBatchW, hbody, hord]
    have ht : specTotalW r = q := by simp [specTotalW, hbody, htot]
    simp only [paginateWorten] at hrun
    rw [if_neg (by omega)] at hrun
    rw [hbody] at hrun
    simp only [jGetD] at hrun
    rw [hord, htot] at hrun
    by_cases hxs : xs.isEmpty
    · have hxsnil : xs = [] := List.isEmpty_iff.mp hxs
      subst hxsnil
      simp only [truthy, List.isEmpty_nil, Bool.not_true, if_pos rfl] at hrun
      obtain ⟨h1, h2, h3⟩ : acc = res ∧ off0 = off ∧ 1 = n := by
        have := (Except.ok.injEq _ _).mp hrun
        exact ⟨congrArg Prod.fst this, congrArg (fun p => p.2.1) this,
          congrArg (fun p => p.2.2) this⟩
      subst h1; subst h2; subst h3
      refine ⟨?_, hacc, by simp, ?_⟩
      · simp [pageSpec, hb]
      · simp [hb]
    · have hxne : ¬ xs = [] := fun e => by simp [e] at hxs
      have htr : (truthy (.jarr xs) = false) = False := by
        simp [truthy, List.isEmpty_eq_false.mpr hxne]
      simp only [truthy] at hrun
      rw [if_neg (by simpa using hxne)] at hrun
      simp only [asIterList, asNumQ] at hrun
      by_cases hcmp : ((off0 + xs.length : Nat) : ℚ) ≥ q
      · rw [if_pos hcmp] at hrun
        obtain ⟨h1, h2, h3⟩ : acc ++ xs = res ∧ off0 + xs.length = off ∧ 1 = n := by
          have := (Except.ok.injEq _ _).mp hrun
          exact ⟨congrArg Prod.fst this, congrArg (fun p => p.2.1) this,
            congrArg (fun p => p.2.2) this⟩
        subst h1; subst h2; subst h3
        refine ⟨?_, ?_, by simp, ?_⟩
        · simp only [pageSpec, hb, ht]
          rw [if_neg (by simpa using hxne), if_pos hcmp]
        · simp [hacc]
        · simp [hb]
      · rw [if_neg hcmp] at hrun
        cases hrec : paginateWorten rest (off0 + xs.length) (acc ++ xs) with
        | error e => rw [hrec] at hrun; exact absurd hrun (by simp)
        | ok trip =>
          obtain ⟨res', o', n'⟩ := trip
          rw [hrec] at hrun
          dsimp only at hrun
          obtain ⟨h1, h2, h3⟩ : res' = res ∧ o' = off ∧ n' + 1 = n := by
            have := (Except.ok.injEq _ _).mp hrun
            exact ⟨congrArg Prod.fst this, congrArg (fun p => p.2.1) this,
              congrArg (fun p => p.2.2) this⟩
          subst h1; subst h2; subst h3
          have hlen : off0 + xs.length = (acc ++ xs).length := by
            simp [hacc]
          obtain ⟨hspec', hoff', hn', hres'⟩ :=
            ih (fun x hx => hwf x (List.mem_cons_of_mem _ hx)) res' o' n'
              (off0 + xs.length) (acc ++ xs) hrec hlen
          refine ⟨?_, hoff', by simp only [List.length_cons]; omega, ?_⟩
          · simp only [pageSpec, hb, ht]
            rw [if_neg (by simpa using hxne), if_neg hcmp]
            exact hspec'
          · rw [hres']
            simp [List.take_succ_cons, hb, List.append_assoc]

/-- C4: on well-formed page responses, the pagination loop of
`get_orders_worten` agrees with the claim transcribed verbatim in
`pageSpec`: it accumulates `all_orders` as the in-order concatenation of
the returned batches (`res` is the flattening of the consumed prefix's
batches), advances `offset` by exactly each batch's length (the final
offset equals the accumulated length), and stops at the first empty batch
or as soon as the offset reaches the `total_count` reported by the
current response (that is `pageSpec`'s stopping rule). -/
theorem c4_pagination_refines_spec (rs : List HttpResp) (res : List JVal) (off n : Nat)
    (hwf : ∀ r ∈ rs, wfRespW r)
    (hrun : paginateWorten rs 0 [] = .ok (res, off, n)) :
    pageSpec rs 0 [] = some res ∧ off = res.length ∧ n ≤ rs.length ∧
    res = ((rs.take n).map specBatchW).flatten := by
  have h := paginateWorten_spec_aux rs hwf res off n 0 [] hrun rfl
  simpa using h

/-- Witness for C4 on a concrete two-page session with `total_count`
3. -/
theorem c4_pagination_refines_spec_witness :
    pageSpec [c4r1, c4r2] 0 [] = some [wOrd "a", wOrd "b", wOrd "c"] ∧
    3 = [wOrd "a", wOrd "b", wOrd "c"].length ∧ 2 ≤ [c4r1, c4r2].length ∧
    [wOrd "a", wOrd "b", wOrd "c"] = (([c4r1, c4r2].take 2).map specBatchW).flatten :=
  c4_pagination_refines_spec [c4r1, c4r2] [wOrd "a", wOrd "b", wOrd "c"] 3 2
    (by
      intro r hr
      rcases List.mem_cons.mp hr with h | h
      · subst h
        exact ⟨by decide, _, _, _, rfl, rfl, rfl⟩
      · rcases List.mem_cons.mp h with h2 | h2
        · subst h2
          exact ⟨by decide, _, _, _, rfl, rfl, rfl⟩
        · exact absurd h2 (List.not_mem_nil r))
    rfl

/-- Generalized success/termination invariant for `get_orders_worten`'s
loop: from any offset at most `N`, given enough responses, all reporting
`total_count = N` and non-empty below `N`, the loop returns normally with
final offset at least `N`, offset advance matching the accumulated
orders, and at most `N + 1 - off0` requests. -/
theorem paginateWorten_terminates_aux (N : Nat) :
    ∀ (rs : List HttpResp) (off0 : Nat) (acc : List JVal),
    off0 ≤ N → N + 1 - off0 ≤ rs.length →
    (∀ r ∈ rs, wfRespWN N r) →
    nonEmptyWhenBelow specBatchW N off0 rs →
    ∃ res off n, paginateWorten rs off0 acc = .ok (res, off, n) ∧
      N ≤ off ∧ res.length + off0 = acc.length + off ∧ n ≤ N + 1 - off0 := by
  intro rs
  induction rs with
  | nil =>
    intro off0 acc h0 hlen _ _
    simp only [List.length_nil] at hlen
    exact absurd rfl (by omega : ¬ (0 : Nat) = 0)
  | cons r rest ih =>
    intro off0 acc h0 hlen hwf hne
    obtain ⟨hst, fs, xs, hbody, hord, htot⟩ := hwf r (List.mem_cons_self _ _)
    have hb : specBatchW r = xs := by simp [specBatchW, hbody, hord]
    simp only [nonEmptyWhenBelow] at hne
    obtain ⟨hne1, hne2⟩ := hne
    simp only [paginateWorten]
    rw [if_neg (by omega)]
    rw [hbody]
    simp only [jGetD]
    rw [hord]
    by_cases hxs : xs = []
    · have hoffN : off0 = N := by
        by_contra hne'
        have hlt : off0 < N := by omega
        exact (hne1 hlt) (by rw [hb, hxs])
      subst hxs
      refine ⟨acc, off0, 1, ?_, by omega, by omega, by omega⟩
      simp [truthy]
    · have htr : truthy (.jarr xs) = true := by
        simp [truthy, hxs]
      rw [htr]
      simp only [Bool.true_eq_false, if_false]
      simp only [asIterList]
      rw [htot]
      simp only [Option.getD_some, asNumQ]
      by_cases hcmp : ((off0 + xs.length : Nat) : ℚ) ≥ (N : ℚ)
      · rw [if_pos hcmp]
        have hNle : N ≤ off0 + xs.length := by exact_mod_cast hcmp
        refine ⟨acc ++ xs, off0 + xs.length, 1, rfl, hNle, by simp; omega, by omega⟩
      · rw [if_neg hcmp]
        have hlt : off0 + xs.length < N := by
          have := lt_of_not_ge hcmp
          exact_mod_cast this
        have hxslen : 1 ≤ xs.length := by
          cases xs with
          | nil => exact absurd rfl hxs
          | cons a b => simp
        obtain ⟨res, off, n, hrun, hNoff, hrel, hn⟩ :=
          ih (off0 + xs.length) (acc ++ xs) (by omega)
            (by simp only [List.length_cons] at hlen; omega)
            (fun x hx => hwf x (List.mem_cons_of_mem _ hx))
            (by rw [hb] at hne2; exact hne2)
        refine ⟨res, off, n + 1, ?_, hNoff, ?_, by omega⟩
        · rw [hrun]
        · simp only [List.length_append] at hrel
          omega

/-- The `WortenAPI.get_orders` analogue of
`paginateWorten_terminates_aux`. -/
theorem paginateWortenCls_terminates_aux (N : Nat) :
    ∀ (rs : List HttpResp) (off0 : Nat) (acc : List JVal),
    off0 ≤ N → N + 1 - off0 ≤ rs.length →
    (∀ r ∈ rs, wfRespClsN N r) →
    nonEmptyWhenBelow specBatchCls N off0 rs →
    ∃ res off n, paginateWortenCls rs off0 acc = .ok (res, off, n) ∧
      N ≤ off ∧ res.length + off0 = acc.length + off ∧ n ≤ N + 1 - off0 := by
  intro rs
  induction rs with
  | nil =>
    intro off0 acc h0 hlen _ _
    simp only [List.length_nil] at hlen
    exact absurd rfl (by omega : ¬ (0 : Nat) = 0)
  | cons r rest ih =>
    intro off0 acc h0 hlen hwf hne
    obtain ⟨hst, fs, xs, hbody, hord, htot⟩ := hwf r (List.mem_cons_self _ _)
    have hb : specBatchCls r = xs := by simp [specBatchCls, hbody, hord]
    simp only [nonEmptyWhenBelow] at hne
    obtain ⟨hne1, hne2⟩ := hne
    simp only [paginateWortenCls]
    rw [if_neg (by omega)]
    rw [hbody]
    simp only [jGetD]
    rw [hord]
    by_cases hxs : xs = []
    · have hoffN : off0 = N := by
        by_contra hne'
        have hlt : off0 < N := by omega
        exact (hne1 hlt) (by rw [hb, hxs])
      subst hxs
      refine ⟨acc, off0, 1, ?_, by omega, by omega, by omega⟩
      simp [truthy]
    · have htr : truthy (.jarr xs) = true := by
        simp [truthy, hxs]
      rw [htr]
      simp only [Bool.true_eq_false, if_false]
      simp only [asIterList]
      rw [htot]
      simp only [Option.getD_some, asNumQ]
      by_cases hcmp : ((off0 + xs.length : Nat) : ℚ) ≥ (N : ℚ)
      · rw [if_pos hcmp]
        have hNle : N ≤ off0 + xs.length := by exact_mod_cast hcmp
        refine ⟨acc ++ xs, off0 + xs.length, 1, rfl, hNle, by simp; omega, by omega⟩
      · rw [if_neg hcmp]
        have hlt : off0 + xs.length < N := by
          have := lt_of_not_ge hcmp
          exact_mod_cast this
        have hxslen : 1 ≤ xs.length := by
          cases xs with
          | nil => exact absurd rfl hxs
          | cons a b => simp
        obtain ⟨res, off, n, hrun, hNoff, hrel, hn⟩ :=
          ih (off0 + xs.length) (acc ++ xs) (by omega)
            (by simp only [List.length_cons] at hlen; omega)
            (fun x hx => hwf x (List.mem_cons_of_mem _ hx))
            (by rw [hb] at hne2; exact hne2)
        refine ⟨res, off, n + 1, ?_, hNoff, ?_, by omega⟩
        · rw [hrun]
        · simp only [List.length_append] at hrel
          omega

/-- C5: under the precondition that every response reports one fixed
`total_count = N` and returns a non-empty batch whenever the current
offset is below `N`, the pagination loops of both `get_orders_worten` and
`WortenAPI.get_orders` terminate after finitely many HTTP requests — at
most `N + 1` — having accumulated at least `N` orders. -/
theorem c5_pagination_terminates (N : Nat) (rs1 rs2 : List HttpResp)
    (h1len : N + 1 ≤ rs1.length) (h1wf : ∀ r ∈ rs1, wfRespWN N r)
    (h1ne : nonEmptyWhenBelow specBatchW N 0 rs1)
    (h2len : N + 1 ≤ rs2.length) (h2wf : ∀ r ∈ rs2, wfRespClsN N r)
    (h2ne : nonEmptyWhenBelow specBatchCls N 0 rs2) :
    (∃ res off n, paginateWorten rs1 0 [] = .ok (res, off, n) ∧
      N ≤ res.length ∧ n ≤ N + 1) ∧
    (∃ res off n, paginateWortenCls rs2 0 [] = .ok (res, off, n) ∧
      N ≤ res.length ∧ n ≤ N + 1) := by
  constructor
  · obtain ⟨res, off, n, hrun, hNoff, hrel, hn⟩ :=
      paginateWorten_terminates_aux N rs1 0 [] (by omega) (by omega) h1wf h1ne
    exact ⟨res, off, n, hrun, by simp at hrel; omega, by omega⟩
  · obtain ⟨res, off, n, hrun, hNoff, hrel, hn⟩ :=
      paginateWortenCls_terminates_aux N rs2 0 [] (by omega) (by omega) h2wf h2ne
    exact ⟨res, off, n, hrun, by simp at hrel; omega, by omega⟩

/-- Witness for C5 with `N = 2` over three one-order pages. -/
theorem c5_pagination_terminates_witness :
    (∃ res off n, paginateWorten [c5resp "a", c5resp "b", c5resp "c"] 0 [] = .ok (res, off, n) ∧
      2 ≤ res.length ∧ n ≤ 2 + 1) ∧
    (∃ res off n, paginateWortenCls [c5resp "a", c5resp "b", c5resp "c"] 0 [] = .ok (res, off, n) ∧
      2 ≤ res.length ∧ n ≤ 2 + 1) :=
  c5_pagination_terminates 2 [c5resp "a", c5resp "b", c5resp "c"] [c5resp "a", c5resp "b", c5resp "c"]
    (by simp)
    (by
      intro r hr
      rcases List.mem_cons.mp hr with h | h
      · subst h; exact ⟨by decide, _, _, rfl, rfl, rfl⟩
      rcases List.mem_cons.mp h with h | h
      · subst h; exact ⟨by decide, _, _, rfl, rfl, rfl⟩
      rcases List.mem_cons.mp h with h | h
      · subst h; exact ⟨by decide, _, _, rfl, rfl, rfl⟩
      · exact absurd h (List.not_mem_nil r))
    (by simp [nonEmptyWhenBelow, specBatchW, c5resp, wOrd, jLookup])
    (by simp)
    (by
      intro r hr
      rcases List.mem_cons.mp hr with h | h
      · subst h; exact ⟨by decide, _, _, rfl, rfl, rfl⟩
      rcases List.mem_cons.mp h with h | h
      · subst h; exact ⟨by decide, _, _, rfl, rfl, rfl⟩
      rcases List.mem_cons.mp h with h | h
      · subst h; exact ⟨by decide, _, _, rfl, rfl, rfl⟩
      · exact absurd h (List.not_mem_nil r))
    (by simp [nonEmptyWhenBelow, specBatchCls, c5resp, wOrd, jLookup, pyOr, truthy])
